import Mathlib

/-!
# BaseX C/C++ client: protocol engine

A shallow embedding of `readstring.c`, `basexdbc.c` and `BaseXSession.cpp`.

* The transport (SDL_net) is outside the repository.  A connection is modelled by the data the
  peer delivers (`Conn.inbound`, a list of chunks), by what successive send calls report
  (`Conn.sendRets`) and by the bytes the transport accepted (`Conn.outbound`).
* `md5`, `SIZE_MAX`, `BUFSIZ`, the signedness of `char` and the success of `realloc` come from
  headers and libraries outside the repository; they are the fields of `Env`.
* Diagnostics written with `printf` are not part of the model; the first `calloc` of
  `readstring` is taken to succeed.
-/

namespace BaseX

/-- One octet on the wire (a C `char` seen as its bit pattern). -/
abbrev Byte := Fin 256

/-- Parameters fixed by the C implementation and the libraries the client is built against. -/
structure Env where
  /-- Largest value of `size_t` (from `stdint.h`). -/
  SIZE_MAX : Nat
  /-- Size of the challenge buffer `ts` (from `stdio.h`). -/
  BUFSIZ : Nat
  /-- Whether plain `char` is a signed type. -/
  char_signed : Bool
  /-- The digest primitive of `md5.h`: hex digest of a string, `none` when it returns `NULL`. -/
  md5_digest : List Byte → Option (List Byte)
  /-- Whether `realloc` to the given size succeeds. -/
  realloc_ok : Nat → Bool

/-- A connected socket.
`inbound` lists the chunks in which the peer's bytes become available; an empty chunk stands
for a receive call that fails, and an exhausted list for a connection closed by the peer.
`sendRets` lists what successive send calls report; once it is exhausted every send accepts
the whole buffer.  `outbound` collects the bytes accepted by the transport, in order. -/
structure Conn where
  inbound : List (List Byte)
  sendRets : List Int
  outbound : List Byte
  closed : Bool
deriving DecidableEq, Repr

/-- Outcome of one `SDLNet_TCP_Recv` call. -/
structure RecvResult where
  rc : Int
  data : List Byte
  conn : Conn
deriving DecidableEq, Repr

/-- Outcome of one `SDLNet_TCP_Send` call, and of `send_db`. -/
structure SendResult where
  rc : Int
  conn : Conn
deriving DecidableEq, Repr

/-- The transport's receive: `SDLNet_TCP_Recv(socket, buf, maxlen)` returns what is available
of the current chunk, at most `maxlen` bytes; `0` on a closed connection, `-1` on a fault. -/
def SDLNet_TCP_Recv (c : Conn) (maxlen : Nat) : RecvResult :=
  match c.inbound with
  | [] => ⟨0, [], c⟩
  | [] :: rest => ⟨-1, [], { c with inbound := rest }⟩
  | (b :: bs) :: rest =>
    let got := (b :: bs).take maxlen
    match (b :: bs).drop maxlen with
    | [] => ⟨got.length, got, { c with inbound := rest }⟩
    | left => ⟨got.length, got, { c with inbound := left :: rest }⟩

/-- The transport's send: `SDLNet_TCP_Send(socket, buf, len)` with `buf` the `len` bytes
offered.  The value reported is the next entry of `sendRets` (never more than `len`); a
positive value means that many leading bytes were accepted. -/
def SDLNet_TCP_Send (c : Conn) (buf : List Byte) : SendResult :=
  match c.sendRets with
  | [] => ⟨buf.length, { c with outbound := c.outbound ++ buf }⟩
  | r :: rs =>
    let n : Int := min r buf.length
    ⟨n, { c with sendRets := rs, outbound := c.outbound ++ buf.take n.toNat }⟩

/-- Content of a C string: the bytes before the first NUL (what `strlen` measures). -/
def cstr (s : List Byte) : List Byte :=
  s.takeWhile (fun b => b ≠ 0)

/-- Conversion of a `char` to `int`. -/
def charToInt (E : Env) (b : Byte) : Int :=
  if E.char_signed ∧ 128 ≤ b.val then (b.val : Int) - 256 else (b.val : Int)

/-- Value of `READSTRING_MAX` (readstring.c, line 12). -/
def READSTRING_MAX : Nat := 1024 * 1024 * 10

/-- What `readstring` leaves behind: the returned `int`, `*str` (the bytes stored, terminator
included; `none` for `NULL`) and the connection. -/
structure ReadResult where
  rc : Int
  str : Option (List Byte)
  conn : Conn
deriving DecidableEq, Repr

/-- The reallocation block of `readstring` (lines 43-64), entered with `chars` stored bytes and
capacity `size`: the capacity to go on with, or `none` for `goto err`. -/
def grow (E : Env) (chars size : Nat) : Option Nat :=
  if ¬ (chars < size - 1) then
    if size ≠ 0 ∧ 2 > E.SIZE_MAX / size then none
    else
      let newsize := (size * 2) % (E.SIZE_MAX + 1)
      if newsize < READSTRING_MAX then
        if E.realloc_ok newsize then some newsize else none
      else none
  else some size

/-- The `while(1)` loop of `readstring`.  `str` holds the stored bytes (`chars` is its length),
`size` the capacity.  The first argument bounds the number of iterations; `none` means the
bound was too small (`readstring_loop_isSome` shows the bound used by `readstring` suffices). -/
def readstring_loop (E : Env) : Nat → Conn → List Byte → Nat → Option ReadResult
  | 0, _, _, _ => none
  | fuel + 1, c, str, size =>
    match grow E str.length size with
    | none => some ⟨-1, none, c⟩
    | some size1 =>
      let r := SDLNet_TCP_Recv c 1
      if r.rc ≤ 0 then some ⟨-1, none, r.conn⟩
      else
        let b := r.data.headD 0
        let str1 := str ++ [b]
        if b = 0 then some ⟨(str1.length : Int), some str1, r.conn⟩
        else readstring_loop E fuel r.conn str1 size1

/-- Model of `readstring(socket, str)`: start capacity 32, no byte stored.  Each iteration that
continues consumes one pending byte, so one more iteration than pending bytes is enough. -/
def readstring (E : Env) (c : Conn) : ReadResult :=
  (readstring_loop E (c.inbound.flatten.length + 1) c [] 32).getD ⟨-1, none, c⟩

/-- The loop of `readstring` once more, recording for every iteration the number of stored
bytes `chars` and the capacity `size` found at the top of the loop (line 43).  The control
flow is that of `readstring_loop`; `readstring_iterations_length` ties the two together. -/
def readstring_iterations (E : Env) : Nat → Conn → List Byte → Nat → List (Nat × Nat)
  | 0, _, _, _ => []
  | fuel + 1, c, str, size =>
    (str.length, size) ::
      match grow E str.length size with
      | none => []
      | some size1 =>
        let r := SDLNet_TCP_Recv c 1
        if r.rc ≤ 0 then []
        else
          let b := r.data.headD 0
          if b = 0 then []
          else readstring_iterations E fuel r.conn (str ++ [b]) size1

/-- Model of `basex_status`: one single-byte receive; `-1` when it fails, else the byte as `int`. -/
def basex_status (E : Env) (c : Conn) : SendResult :=
  let r := SDLNet_TCP_Recv c 1
  if r.rc ≤ 0 then ⟨-1, r.conn⟩ else ⟨charToInt E (r.data.headD 0), r.conn⟩

/-- The loop of `send_db`; `buf` is what is still to be written (`buf_len` is its length).
Each continuing iteration shortens `buf`, which bounds the iterations by its length. -/
def send_db_loop : Nat → Conn → List Byte → SendResult
  | 0, c, _ => ⟨0, c⟩
  | fuel + 1, c, buf =>
    if buf.length = 0 then ⟨0, c⟩
    else
      let r := SDLNet_TCP_Send c buf
      if r.rc = 0 then ⟨0, r.conn⟩
      else if r.rc < 0 then ⟨-1, r.conn⟩
      else send_db_loop fuel r.conn (buf.drop r.rc.toNat)

/-- Model of `send_db(socket, buf, buf_len)`. -/
def send_db (c : Conn) (buf : List Byte) : SendResult :=
  send_db_loop buf.length c buf

/-- Model of `strchr(s, ch)` on the content of a C string: offset of the first `ch`, `none`
for `NULL`. -/
def strchr : List Byte → Byte → Option Nat
  | [], _ => none
  | b :: bs, ch => if b = ch then some 0 else (strchr bs ch).map (· + 1)

/-- The call `md5(s)`: the primitive reads the C string at `s` and its result is used as a
C string; `none` stands for `NULL`. -/
def md5 (E : Env) (s : List Byte) : Option (List Byte) :=
  (E.md5_digest (cstr s)).map cstr

/-- How a call of `basex_authenticate` ends. -/
inductive AuthResult
  /-- The function returned `rc`. -/
  | returned (rc : Int) (conn : Conn)
  /-- The receive filled all `BUFSIZ` bytes of `ts` without a NUL: `strlen(ts)` reads past
  the buffer and the behaviour is undefined. -/
  | overrun (conn : Conn)
deriving DecidableEq, Repr

/-- Where `basex_authenticate` stands once it has dealt with the response frame. -/
inductive AuthStep
  /-- The function has already returned (or run into undefined behaviour). -/
  | exit (r : AuthResult)
  /-- Challenge received, user name and response handed to the transport; the status byte is
  read next. -/
  | sent (conn : Conn)
deriving DecidableEq, Repr

/-- Lines 92-189 of `basex_authenticate(socket, user, passwd)`: receive the challenge, send
the user name, compute the digests, send the response. -/
def basex_authenticate_request (E : Env) (c : Conn) (user passwd : List Byte) : AuthStep :=
  let r := SDLNet_TCP_Recv c E.BUFSIZ
  if r.rc ≤ 0 then .exit (.returned (-1) r.conn)
  else if E.BUFSIZ ≤ r.data.length ∧ (0 : Byte) ∉ r.data then .exit (.overrun r.conn)
  else
    let ts := cstr r.data
    let ts_len := ts.length
    let user_len : Nat := (cstr user).length + 1
    let s1 := SDLNet_TCP_Send r.conn (cstr user ++ [0])
    if s1.rc < user_len then .exit (.returned (-1) s1.conn)
    else
      let digest : Option (List Byte × List Byte × Nat) :=
        match strchr ts 58 with
        | none => (md5 E passwd).map fun md5_pwd => (md5_pwd, ts, ts_len)
        | some realm_len =>
          let codewd := cstr user ++ [58] ++ ts.take realm_len ++ [58] ++ cstr passwd
          (md5 E codewd).map fun md5_pwd =>
            (md5_pwd, ts.drop (realm_len + 1), ts_len - realm_len - 1)
      match digest with
      | none => .exit (.returned (-1) s1.conn)
      | some (md5_pwd, t, ts_len1) =>
        let pwdts := md5_pwd ++ t.take ts_len1
        match md5 E pwdts with
        | none => .exit (.returned (-1) s1.conn)
        | some md5_pwdts =>
          let s2 := SDLNet_TCP_Send s1.conn (md5_pwdts ++ [0])
          if s2.rc ≤ 0 then .exit (.returned (-1) s2.conn)
          else .sent s2.conn

/-- Model of `basex_authenticate(socket, user, passwd)` (basexdbc.c, lines 89-205): the
request part above, then lines 191-204, the status byte. -/
def basex_authenticate (E : Env) (c : Conn) (user passwd : List Byte) : AuthResult :=
  match basex_authenticate_request E c user passwd with
  | .exit r => r
  | .sent c3 =>
    let st := basex_status E c3
    if st.rc = -1 then .returned (-1) st.conn
    else if st.rc ≠ 0 then .returned (-1) st.conn
    else .returned 0 st.conn

/-- How a call of `basex_execute` ends. -/
inductive ExecResult
  /-- The function returned `rc`, leaving `*result` and `*info` as given (`none` is `NULL`;
  a buffer is given with its terminator). -/
  | returned (rc : Int) (result info : Option (List Byte)) (conn : Conn)
  /-- The check `assert(rc == 0 || rc == 1)` failed and stopped the program. -/
  | assert_failed (conn : Conn)
deriving DecidableEq, Repr

/-- Model of `basex_execute(socket, command, result, info)` (basexdbc.c, lines 261-315). -/
def basex_execute (E : Env) (c : Conn) (command : List Byte) : ExecResult :=
  let s := send_db c (cstr command ++ [0])
  if s.rc = -1 then .returned (-1) none none s.conn
  else
    let r1 := readstring E s.conn
    if r1.rc = -1 then .returned (-1) none none r1.conn
    else
      let r2 := readstring E r1.conn
      if r2.rc = -1 then .returned (-1) none none r2.conn
      else
        let st := basex_status E r2.conn
        if st.rc = -1 then .returned (-1) none none st.conn
        else
          let result := if st.rc = 1 then none else r1.str
          if st.rc = 0 ∨ st.rc = 1 then .returned st.rc result r2.str st.conn
          else .assert_failed st.conn

/-- Model of `basex_close(socket)`: sends `exit` and its terminator through `send_db`, ignores
the outcome, and closes the socket. -/
def basex_close (c : Conn) : Conn :=
  let s := send_db c [101, 120, 105, 116, 0]
  { s.conn with closed := true }

/-- What the SDL calls made by `basex_connect` do. -/
structure Net where
  SDL_Init : Int
  SDLNet_Init : Int
  /-- Result of `SDLNet_ResolveHost` for a host and a port. -/
  SDLNet_ResolveHost : String → String → Int
  /-- Result of `SDLNet_TCP_Open` on the resolved address, `none` for `NULL`. -/
  SDLNet_TCP_Open : String → String → Option Conn

/-- Model of `basex_connect(host, port)`; `none` is a `NULL` argument or result. -/
def basex_connect (N : Net) (host port : Option String) : Option Conn :=
  if N.SDL_Init = -1 then none
  else if N.SDLNet_Init = -1 then none
  else
    match host, port with
    | some h, some p =>
      if N.SDLNet_ResolveHost h p = -1 then none else N.SDLNet_TCP_Open h p
    | _, _ => none

/-- The data members of class `BaseXSession`; `m_socket = none` is `nullptr`. -/
structure BaseXSession where
  m_db_open : Bool
  m_socket : Option Conn
deriving DecidableEq, Repr

/-- The exceptions of BaseXSession.h with their message. -/
inductive Thrown
  | BaseXNetworkError (message : String)
  | BaseXCommandError (message : List Byte)
deriving DecidableEq, Repr

/-- How a member function call ends. -/
inductive Call (α : Type)
  /-- Normal return. -/
  | returned (v : α)
  /-- An exception left the function. -/
  | threw (e : Thrown)
  /-- The program was stopped by the failed assertion in `basex_execute`. -/
  | aborted
  /-- Undefined behaviour (buffer overrun in `basex_authenticate`, string built from `NULL`). -/
  | undefined
  /-- The null handle was passed on to the C layer, which hands it to the transport unchecked. -/
  | null_socket
deriving DecidableEq, Repr

namespace BaseXSession

/-- A default-constructed session. -/
def new : BaseXSession := ⟨false, none⟩

/-- Member `is_open`: `return m_socket;`. -/
def is_open (s : BaseXSession) : Bool := s.m_socket.isSome

/-- Member `open` (BaseXSession.cpp, lines 16-26). -/
def open_ (E : Env) (N : Net) (s : BaseXSession) (host port : String)
    (user pass : List Byte) : Call Unit × BaseXSession :=
  match basex_connect N (some host) (some port) with
  | none =>
    (.threw (.BaseXNetworkError
      ("Cannot connect to BaseX server at " ++ host ++ " with port " ++ port)),
     { s with m_socket := none })
  | some c =>
    match basex_authenticate E c user pass with
    | .overrun c1 => (.undefined, { s with m_socket := some c1 })
    | .returned rc c1 =>
      if rc = -1 then
        (.threw (.BaseXNetworkError "Access denied, please verify username and password"),
         { s with m_socket := some c1 })
      else (.returned (), { s with m_socket := some c1 })

/-- Member `execute` (BaseXSession.cpp, lines 28-51). -/
def execute (E : Env) (s : BaseXSession) (command : List Byte) :
    Call (List Byte) × BaseXSession :=
  match s.m_socket with
  | none => (.null_socket, s)
  | some c =>
    match basex_execute E c command with
    | .assert_failed c1 => (.aborted, { s with m_socket := some c1 })
    | .returned res result info c1 =>
      let s1 := { s with m_socket := some c1 }
      if res = -1 then (.threw (.BaseXNetworkError "Connection to BaseX server lost"), s1)
      else if res > 0 then
        match info with
        | none => (.undefined, s1)
        | some i => (.threw (.BaseXCommandError (cstr i)), s1)
      else
        match result with
        | none => (.undefined, s1)
        | some r => (.returned (cstr r), s1)

/-- Member `close` (BaseXSession.cpp, lines 53-57).  The value returned by the model is the
state in which `basex_close` left the connection. -/
def close (s : BaseXSession) : Call Conn × BaseXSession :=
  match s.m_socket with
  | none => (.null_socket, s)
  | some c => (.returned (basex_close c), { s with m_socket := none })

end BaseXSession

/-! ## The transport as seen by single-byte reads -/

/-- The transport hands over exactly `bytes`, in some chunking and without a failing receive,
and then goes on as `post`. -/
def Delivers (inb : List (List Byte)) (bytes : List Byte) (post : List (List Byte)) : Prop :=
  ∃ pre, inb = pre ++ post ∧ [] ∉ pre ∧ pre.flatten = bytes

/-- The next receive fails: the connection is closed or the transport reports a fault. -/
def Ends (post : List (List Byte)) : Prop :=
  post = [] ∨ ∃ t, post = [] :: t

/-- A reference build for the examples: LP64 `size_t`, `BUFSIZ` 8192, signed `char`, memory
always available, and a stand-in for the digest primitive. -/
def refEnv : Env :=
  { SIZE_MAX := 18446744073709551615
    BUFSIZ := 8192
    char_signed := true
    md5_digest := fun s => some (s.reverse ++ [109, 100, 53])
    realloc_ok := fun _ => true }

/-- A network for the examples: SDL starts, every host resolves, and the connect yields `c`. -/
def refNet (c : Conn) : Net :=
  { SDL_Init := 0
    SDLNet_Init := 0
    SDLNet_ResolveHost := fun _ _ => 0
    SDLNet_TCP_Open := fun _ _ => some c }

theorem cstr_of_not_mem (s : List Byte) (h : (0 : Byte) ∉ s) : cstr s = s := by
  unfold cstr
  rw [List.takeWhile_eq_self_iff]
  intro b hb
  have : b ≠ 0 := fun e => h (e ▸ hb)
  simpa using this

theorem cstr_append_nul (s rest : List Byte) (h : (0 : Byte) ∉ s) :
    cstr (s ++ 0 :: rest) = s := by
  induction s with
  | nil => simp [cstr]
  | cons b bs ih =>
    have hb : b ≠ 0 := fun e => h (by simp [e])
    have hbs : (0 : Byte) ∉ bs := fun e => h (by simp [e])
    have := ih hbs
    simp only [cstr] at this ⊢
    simp only [List.cons_append, List.takeWhile_cons, hb, ne_eq, not_false_eq_true,
      decide_True, ite_true, this]

theorem cstr_not_mem (s : List Byte) : (0 : Byte) ∉ cstr s := by
  intro h
  have := List.mem_takeWhile_imp h
  simp at this

theorem Delivers.length_le {inb : List (List Byte)} {bytes : List Byte}
    {post : List (List Byte)} (h : Delivers inb bytes post) :
    bytes.length ≤ inb.flatten.length := by
  obtain ⟨pre, rfl, -, rfl⟩ := h
  simp

theorem Delivers.nil_iff {inb post : List (List Byte)} : Delivers inb [] post ↔ inb = post := by
  constructor
  · rintro ⟨pre, rfl, hne, hfl⟩
    cases pre with
    | nil => rfl
    | cons ch pre' =>
      exfalso
      simp only [List.flatten_cons, List.append_eq_nil] at hfl
      exact hne (by simp [hfl.1])
  · rintro rfl
    exact ⟨[], by simp, by simp, by simp⟩

/-- A single-byte receive on a transport that delivers `b :: bs` yields `b`. -/
theorem recv_one_of_delivers {c : Conn} {b : Byte} {bs : List Byte} {post : List (List Byte)}
    (h : Delivers c.inbound (b :: bs) post) :
    ∃ inb, Delivers inb bs post ∧
      SDLNet_TCP_Recv c 1 = ⟨1, [b], { c with inbound := inb }⟩ := by
  obtain ⟨pre, hin, hne, hfl⟩ := h
  cases pre with
  | nil => simp at hfl
  | cons ch pre' =>
    cases ch with
    | nil => exact absurd (by simp) hne
    | cons x xs =>
      have hx : x = b := by simp at hfl; exact hfl.1
      have hxs : xs ++ pre'.flatten = bs := by simp at hfl; exact hfl.2
      have hne' : [] ∉ pre' := fun e => hne (by simp [e])
      subst hx
      cases xs with
      | nil =>
        refine ⟨pre' ++ post, ⟨pre', rfl, hne', by simpa using hxs⟩, ?_⟩
        simp [SDLNet_TCP_Recv, hin]
      | cons y ys =>
        refine ⟨(y :: ys) :: (pre' ++ post), ⟨(y :: ys) :: pre', by simp, ?_, by simpa using hxs⟩, ?_⟩
        · intro e
          simp at e
          exact hne' e
        · simp [SDLNet_TCP_Recv, hin]

/-- A receive on a transport that has ended reports failure. -/
theorem recv_of_ends {c : Conn} (h : Ends c.inbound) (n : Nat) :
    (SDLNet_TCP_Recv c n).rc ≤ 0 := by
  rcases h with h | ⟨t, h⟩ <;> simp [SDLNet_TCP_Recv, h]

/-- A receive that succeeds takes at least one pending byte. -/
theorem recv_pending {c : Conn} (h : 0 < (SDLNet_TCP_Recv c 1).rc) :
    (SDLNet_TCP_Recv c 1).conn.inbound.flatten.length < c.inbound.flatten.length := by
  unfold SDLNet_TCP_Recv at h ⊢
  rcases hi : c.inbound with _ | ⟨ch, rest⟩
  · simp [hi] at h
  · cases ch with
    | nil => simp [hi] at h
    | cons x xs =>
      cases xs with
      | nil => simp
      | cons y ys => simp

/-! ## The read loop of `readstring` -/

theorem capacity_double_le {k size : Nat} (hk : size = 32 * 2 ^ k) (h : size ≤ 8388607) :
    size * 2 ≤ 8388608 := by
  have hk17 : k ≤ 17 := by
    by_contra hc
    have h18 : 18 ≤ k := by omega
    have hp : 2 ^ 18 ≤ 2 ^ k := Nat.pow_le_pow_right (by norm_num) h18
    norm_num at hp
    omega
  have hp : 2 ^ k ≤ 2 ^ 17 := Nat.pow_le_pow_right (by norm_num) hk17
  norm_num at hp
  omega

theorem capacity_ge {k size : Nat} (hk : size = 32 * 2 ^ k) : 32 ≤ size := by
  have : 1 ≤ 2 ^ k := Nat.one_le_two_pow
  omega

/-- With memory available and a `size_t` of at least 25 bits, the reallocation block lets the
loop go on as long as at most 8388606 bytes are stored. -/
theorem grow_ok (E : Env) (hS : 16777216 ≤ E.SIZE_MAX) (hR : ∀ n, E.realloc_ok n = true)
    {chars size : Nat} (hp : ∃ k, size = 32 * 2 ^ k) (hc : chars ≤ size - 1)
    (hb : chars ≤ 8388606) :
    ∃ size1, grow E chars size = some size1 ∧ (∃ k, size1 = 32 * 2 ^ k) ∧ chars < size1 - 1 := by
  obtain ⟨k, hk⟩ := hp
  have h32 := capacity_ge hk
  by_cases hlt : chars < size - 1
  · exact ⟨size, by simp [grow, hlt], ⟨k, hk⟩, hlt⟩
  · have hsz : size ≤ 8388607 := by omega
    have hd := capacity_double_le hk hsz
    have hdiv : 2 ≤ E.SIZE_MAX / size := by
      rw [Nat.le_div_iff_mul_le (by omega)]
      omega
    have hmod : (size * 2) % (E.SIZE_MAX + 1) = size * 2 := Nat.mod_eq_of_lt (by omega)
    refine ⟨size * 2, ?_, ⟨k + 1, by rw [hk, pow_succ]; ring⟩, by omega⟩
    have hnot : ¬ (size ≠ 0 ∧ 2 > E.SIZE_MAX / size) := by
      rintro ⟨-, h2⟩
      omega
    have hmax : size * 2 < READSTRING_MAX := by
      unfold READSTRING_MAX
      omega
    simp only [grow, hlt, not_false_eq_true, if_true, hnot, if_false, hmod, hmax, hR]

/-- Whatever the build parameters, the capacity stays between 32 and the maximum, and after
the reallocation block there is room for the byte read next. -/
theorem grow_inv (E : Env) {chars size size1 : Nat} (h32 : 32 ≤ size)
    (hm : size < READSTRING_MAX) (hc : chars ≤ size - 1)
    (hg : grow E chars size = some size1) :
    32 ≤ size1 ∧ size1 < READSTRING_MAX ∧ chars < size1 - 1 := by
  unfold grow at hg
  by_cases hlt : chars < size - 1
  · simp only [hlt, not_true_eq_false, if_false, Option.some.injEq] at hg
    subst hg
    exact ⟨h32, hm, hlt⟩
  · simp only [hlt, not_false_eq_true, if_true] at hg
    by_cases hov : size ≠ 0 ∧ 2 > E.SIZE_MAX / size
    · simp [hov] at hg
    · simp only [hov, if_false] at hg
      have hdiv : 2 ≤ E.SIZE_MAX / size := by
        by_contra hc
        exact hov ⟨by omega, Nat.lt_of_not_le hc⟩
      rw [Nat.le_div_iff_mul_le (by omega)] at hdiv
      have hmod : (size * 2) % (E.SIZE_MAX + 1) = size * 2 := Nat.mod_eq_of_lt (by omega)
      rw [hmod] at hg
      by_cases hmx : size * 2 < READSTRING_MAX
      · simp only [hmx, if_true] at hg
        by_cases hr : E.realloc_ok (size * 2) = true
        · simp only [hr, if_true, Option.some.injEq] at hg
          subst hg
          exact ⟨by omega, hmx, by omega⟩
        · simp [hr] at hg
      · simp [hmx] at hg

/-- Success path of the loop: the transport delivers `s`, free of NUL, then a NUL. -/
theorem readstring_loop_delivers (E : Env) (hS : 16777216 ≤ E.SIZE_MAX)
    (hR : ∀ n, E.realloc_ok n = true) (rest : List Byte) (post : List (List Byte)) :
    ∀ (s : List Byte) (fuel : Nat) (c : Conn) (str : List Byte) (size : Nat),
      (0 : Byte) ∉ s → Delivers c.inbound (s ++ 0 :: rest) post → s.length < fuel →
      (∃ k, size = 32 * 2 ^ k) → str.length ≤ size - 1 → str.length + s.length ≤ 8388606 →
      ∃ inb, Delivers inb rest post ∧
        readstring_loop E fuel c str size =
          some ⟨((str.length + s.length + 1 : Nat) : Int), some (str ++ s ++ [0]),
            { c with inbound := inb }⟩ := by
  intro s
  induction s with
  | nil =>
    intro fuel c str size _ hd hf hp hc hb
    obtain ⟨f, rfl⟩ : ∃ f, fuel = f + 1 := ⟨fuel - 1, by simp at hf; omega⟩
    obtain ⟨size1, hg, -, -⟩ := grow_ok E hS hR hp hc (by simpa using hb)
    obtain ⟨inb, hdi, hrecv⟩ := recv_one_of_delivers (by simpa using hd)
    refine ⟨inb, hdi, ?_⟩
    simp [readstring_loop, hg, hrecv]
  | cons b bs ih =>
    intro fuel c str size h0 hd hf hp hc hb
    obtain ⟨f, rfl⟩ : ∃ f, fuel = f + 1 := ⟨fuel - 1, by simp at hf; omega⟩
    have hb0 : b ≠ 0 := fun e => h0 (by simp [e])
    have hbs : (0 : Byte) ∉ bs := fun e => h0 (by simp [e])
    simp only [List.length_cons] at hb hf
    obtain ⟨size1, hg, hp1, hlt⟩ := grow_ok E hS hR hp hc (by omega)
    obtain ⟨inb, hdi, hrecv⟩ := recv_one_of_delivers (by simpa using hd)
    obtain ⟨inb2, hd2, hloop⟩ :=
      ih f { c with inbound := inb } (str ++ [b]) size1 hbs hdi (by omega) hp1
        (by simp; omega) (by simp; omega)
    refine ⟨inb2, hd2, ?_⟩
    simp only [readstring_loop, hg, hrecv]
    simp only [List.headD_cons, hb0, if_false]
    rw [if_neg (by decide)]
    rw [hloop]
    simp
    omega

/-- The iteration bound chosen by `readstring` is never the reason the loop stops. -/
theorem readstring_loop_isSome (E : Env) :
    ∀ (fuel : Nat) (c : Conn) (str : List Byte) (size : Nat),
      c.inbound.flatten.length < fuel → (readstring_loop E fuel c str size).isSome = true := by
  intro fuel
  induction fuel with
  | zero => intro c str size h; omega
  | succ f ih =>
    intro c str size h
    unfold readstring_loop
    cases hg : grow E str.length size with
    | none => simp
    | some size1 =>
      simp only
      by_cases hrc : (SDLNet_TCP_Recv c 1).rc ≤ 0
      · simp [hrc]
      · simp only [hrc, if_false]
        by_cases hb : (SDLNet_TCP_Recv c 1).data.headD 0 = 0
        · rw [if_pos hb]
          rfl
        · rw [if_neg hb]
          have := recv_pending (c := c) (by omega)
          exact ih _ _ _ (by omega)

theorem readstring_eq_of_loop (E : Env) (c : Conn) :
    readstring_loop E (c.inbound.flatten.length + 1) c [] 32 = some (readstring E c) := by
  have h := readstring_loop_isSome E (c.inbound.flatten.length + 1) c [] 32 (by omega)
  unfold readstring
  cases hl : readstring_loop E (c.inbound.flatten.length + 1) c [] 32 with
  | none =>
    rw [hl] at h
    simp at h
  | some r => simp

/-- Reading one delimited string: the bytes before the terminator are stored, the terminator
is consumed, the rest of the stream is left for the next read. -/
theorem readstring_of_delivers (E : Env) (hS : 16777216 ≤ E.SIZE_MAX)
    (hR : ∀ n, E.realloc_ok n = true) {c : Conn} {s rest : List Byte} {post : List (List Byte)}
    (h0 : (0 : Byte) ∉ s) (hlen : s.length ≤ 8388606)
    (hd : Delivers c.inbound (s ++ 0 :: rest) post) :
    ∃ inb, Delivers inb rest post ∧
      readstring E c = ⟨((s.length + 1 : Nat) : Int), some (s ++ [0]), { c with inbound := inb }⟩ := by
  have hfuel : s.length < c.inbound.flatten.length + 1 := by
    have := hd.length_le
    rw [List.length_append, List.length_cons] at this
    omega
  obtain ⟨inb, hdi, hloop⟩ :=
    readstring_loop_delivers E hS hR rest post s _ c [] 32 h0 hd hfuel ⟨0, by norm_num⟩
      (by simp) (by simpa using hlen)
  refine ⟨inb, hdi, ?_⟩
  have := readstring_eq_of_loop E c
  rw [hloop] at this
  simpa using this.symm

/-- Every exit of the loop either fails with `-1` and `NULL`, or returns the number of stored
bytes, which stays below the maximum. -/
theorem readstring_loop_bound (E : Env) :
    ∀ (fuel : Nat) (c : Conn) (str : List Byte) (size : Nat) (r : ReadResult),
      readstring_loop E fuel c str size = some r → 32 ≤ size → size < READSTRING_MAX →
      str.length ≤ size - 1 →
      (r.rc = -1 ∧ r.str = none) ∨
        ∃ st, r.str = some st ∧ r.rc = (st.length : Int) ∧ st.length < READSTRING_MAX := by
  intro fuel
  induction fuel with
  | zero => intro c str size r h; simp [readstring_loop] at h
  | succ f ih =>
    intro c str size r h h32 hm hc
    unfold readstring_loop at h
    cases hg : grow E str.length size with
    | none =>
      simp only [hg, Option.some.injEq] at h
      subst h
      exact Or.inl ⟨rfl, rfl⟩
    | some size1 =>
      obtain ⟨h32', hm', hlt⟩ := grow_inv E h32 hm hc hg
      simp only [hg] at h
      by_cases hrc : (SDLNet_TCP_Recv c 1).rc ≤ 0
      · rw [if_pos hrc] at h
        simp only [Option.some.injEq] at h
        subst h
        exact Or.inl ⟨rfl, rfl⟩
      · rw [if_neg hrc] at h
        by_cases hb : (SDLNet_TCP_Recv c 1).data.headD 0 = 0
        · rw [if_pos hb] at h
          simp only [Option.some.injEq] at h
          subst h
          refine Or.inr ⟨_, rfl, rfl, ?_⟩
          simp only [List.length_append, List.length_singleton]
          omega
        · rw [if_neg hb] at h
          exact ih _ _ _ r h h32' hm' (by simp only [List.length_append, List.length_singleton]; omega)

/-- A stream that stays free of NUL for as long as the maximum makes the loop fail, after
reading fewer bytes than the maximum. -/
theorem readstring_loop_no_nul (E : Env) (rest : List Byte) (post : List (List Byte)) :
    ∀ (s : List Byte) (fuel : Nat) (c : Conn) (str : List Byte) (size : Nat),
      (0 : Byte) ∉ s → Delivers c.inbound (s ++ rest) post → s.length < fuel →
      32 ≤ size → size < READSTRING_MAX → str.length ≤ size - 1 →
      READSTRING_MAX - 1 ≤ str.length + s.length →
      ∃ r, readstring_loop E fuel c str size = some r ∧ r.rc = -1 ∧ r.str = none ∧
        ∃ k, k ≤ s.length ∧ str.length + k < READSTRING_MAX ∧
          Delivers r.conn.inbound (s.drop k ++ rest) post := by
  intro s
  induction s with
  | nil =>
    intro fuel c str size _ _ _ h32 hm hc hb
    simp only [List.length_nil, Nat.add_zero] at hb
    omega
  | cons b bs ih =>
    intro fuel c str size h0 hd hf h32 hm hc hb
    obtain ⟨f, rfl⟩ : ∃ f, fuel = f + 1 := ⟨fuel - 1, by simp at hf; omega⟩
    have hb0 : b ≠ 0 := fun e => h0 (by simp [e])
    have hbs : (0 : Byte) ∉ bs := fun e => h0 (by simp [e])
    simp only [List.length_cons] at hb hf
    unfold readstring_loop
    cases hg : grow E str.length size with
    | none =>
      exact ⟨_, rfl, rfl, rfl, 0, by simp, by omega, by simpa using hd⟩
    | some size1 =>
      obtain ⟨h32', hm', hlt⟩ := grow_inv E h32 hm hc hg
      obtain ⟨inb, hdi, hrecv⟩ := recv_one_of_delivers (by simpa using hd)
      obtain ⟨r, hr, hrc, hstr, k, hk, hkm, hdk⟩ :=
        ih f { c with inbound := inb } (str ++ [b]) size1 hbs hdi (by omega) h32' hm'
          (by simp only [List.length_append, List.length_singleton]; omega)
          (by simp only [List.length_append, List.length_singleton]; omega)
      refine ⟨r, ?_, hrc, hstr, k + 1, by simp; omega, ?_, by simpa using hdk⟩
      · simp only [hrecv, List.headD_cons, hb0, if_false]
        rw [if_neg (by decide)]
        exact hr
      · simp only [List.length_append, List.length_singleton] at hkm
        omega

/-! ## The delimited-string reader: claims C6 and C7 -/

/-- C6: round trip of `readstring`.  For every byte sequence `s` without NUL and of length at
most 8388606, when the connection delivers `s` followed by a NUL (in any chunking, whatever
follows), `readstring` succeeds, returns `length s + 1`, and stores exactly `s` followed by
the terminator, so that the C string it hands back is `s`. -/
theorem readstring_roundtrip (E : Env) (hS : 16777216 ≤ E.SIZE_MAX)
    (hR : ∀ n, E.realloc_ok n = true) (c : Conn) (s rest : List Byte)
    (post : List (List Byte)) (h0 : (0 : Byte) ∉ s) (hlen : s.length ≤ 8388606)
    (hd : Delivers c.inbound (s ++ 0 :: rest) post) :
    (readstring E c).rc = ((s.length + 1 : Nat) : Int) ∧
      (readstring E c).str = some (s ++ [0]) ∧
      (readstring E c).str.map cstr = some s := by
  obtain ⟨inb, -, h⟩ := readstring_of_delivers E hS hR h0 hlen hd
  rw [h]
  refine ⟨rfl, rfl, ?_⟩
  simp only [Option.map_some', Option.some.injEq]
  simpa using cstr_append_nul s [] h0

/-- Witness for C6: 65 bytes, one past the second growth boundary, delivered in two chunks. -/
theorem readstring_roundtrip_witness :
    (0 : Byte) ∉ List.replicate 65 (65 : Byte) ∧
      (readstring refEnv ⟨[List.replicate 40 65, List.replicate 25 65 ++ [0, 9]], [], [], false⟩).str.map
        cstr = some (List.replicate 65 65) :=
  ⟨by decide,
   (readstring_roundtrip refEnv (by decide) (fun _ => rfl)
      ⟨[List.replicate 40 65, List.replicate 25 65 ++ [0, 9]], [], [], false⟩
      (List.replicate 65 65) [9] [] (by decide) (by decide)
      ⟨[List.replicate 40 65, List.replicate 25 65 ++ [0, 9]], by simp, by decide, by decide⟩).2.2⟩

/-- C7: the cap of `readstring`.  Whenever `readstring` succeeds, the string it returns is
shorter than 10 MiB (10485760 bytes), terminator included; and on every stream whose first
10485760 bytes are delivered without a transport failure and contain no NUL, `readstring`
stops after fewer than 10485760 single-byte reads and fails: it returns `-1` with `*str`
set to `NULL`, leaving the unread bytes on the connection. -/
theorem readstring_cap (E : Env) (c : Conn) :
    ((readstring E c).rc ≠ -1 →
        ∃ st, (readstring E c).str = some st ∧ (readstring E c).rc = (st.length : Int) ∧
          (cstr st).length < 10485760 ∧ st.length < 10485760) ∧
    (∀ (s rest : List Byte) (post : List (List Byte)),
        Delivers c.inbound (s ++ rest) post → s.length = 10485760 → (0 : Byte) ∉ s →
        (readstring E c).rc = -1 ∧ (readstring E c).str = none ∧
          ∃ k, k < 10485760 ∧
            Delivers (readstring E c).conn.inbound (s.drop k ++ rest) post) := by
  have hmax : READSTRING_MAX = 10485760 := by norm_num [READSTRING_MAX]
  have hloop := readstring_eq_of_loop E c
  constructor
  · intro hrc
    rcases readstring_loop_bound E _ c [] 32 _ hloop (by omega) (by omega) (by simp) with
      ⟨h, -⟩ | ⟨st, hst, hlen, hlt⟩
    · exact absurd h hrc
    · refine ⟨st, hst, hlen, ?_, by omega⟩
      have : (cstr st).length ≤ st.length := (List.takeWhile_sublist _).length_le
      omega
  · intro s rest post hd hs h0
    have hfuel : s.length < c.inbound.flatten.length + 1 := by
      have := hd.length_le
      rw [List.length_append] at this
      omega
    obtain ⟨r, hr, hrc, hstr, k, -, hk, hdk⟩ :=
      readstring_loop_no_nul E rest post s _ c [] 32 h0 hd hfuel (by omega) (by omega)
        (by simp) (by simp only [List.length_nil]; omega)
    rw [hr] at hloop
    have hrr : r = readstring E c := by simpa using hloop
    subst hrr
    exact ⟨hrc, hstr, k, by simp only [List.length_nil] at hk; omega, hdk⟩

/-- Witness for C7: a two-byte reply read successfully, and a stream of 10485760 bytes `1`
on which the read fails. -/
theorem readstring_cap_witness :
    (readstring refEnv ⟨[[1, 0]], [], [], false⟩).rc ≠ -1 ∧
      (0 : Byte) ∉ List.replicate 10485760 (1 : Byte) ∧
      (∃ st, (readstring refEnv ⟨[[1, 0]], [], [], false⟩).str = some st ∧
        (readstring refEnv ⟨[[1, 0]], [], [], false⟩).rc = (st.length : Int) ∧
        (cstr st).length < 10485760 ∧ st.length < 10485760) ∧
      (readstring refEnv ⟨[List.replicate 10485760 1], [], [], false⟩).rc = -1 ∧
      (readstring refEnv ⟨[List.replicate 10485760 1], [], [], false⟩).str = none :=
  have h0 : (0 : Byte) ∉ List.replicate 10485760 (1 : Byte) := by
    intro h
    exact absurd (List.eq_of_mem_replicate h) (by decide)
  have hne : ([] : List Byte) ∉ [List.replicate 10485760 (1 : Byte)] := by
    intro h
    have h1 := congrArg List.length (List.mem_singleton.mp h)
    rw [List.length_replicate] at h1
    exact absurd h1 (by decide)
  have hw := (readstring_cap refEnv ⟨[List.replicate 10485760 1], [], [], false⟩).2
    (List.replicate 10485760 1) [] []
    ⟨[List.replicate 10485760 1], rfl, hne, by
      simp only [List.flatten_cons, List.flatten_nil]⟩
    (List.length_replicate _ _) h0
  ⟨by decide, h0,
    (readstring_cap refEnv ⟨[[1, 0]], [], [], false⟩).1 (by decide), hw.1, hw.2.1⟩

/-! ## Sending -/

theorem send_inbound (c : Conn) (buf : List Byte) :
    (SDLNet_TCP_Send c buf).conn.inbound = c.inbound := by
  unfold SDLNet_TCP_Send
  cases c.sendRets <;> rfl

theorem send_db_loop_inbound :
    ∀ (fuel : Nat) (c : Conn) (buf : List Byte), (send_db_loop fuel c buf).conn.inbound = c.inbound := by
  intro fuel
  induction fuel with
  | zero => intro c buf; rfl
  | succ f ih =>
    intro c buf
    unfold send_db_loop
    by_cases h0 : buf.length = 0
    · rw [if_pos h0]
    · rw [if_neg h0]
      simp only
      by_cases h1 : (SDLNet_TCP_Send c buf).rc = 0
      · rw [if_pos h1]
        exact send_inbound c buf
      · rw [if_neg h1]
        by_cases h2 : (SDLNet_TCP_Send c buf).rc < 0
        · rw [if_pos h2]
          exact send_inbound c buf
        · rw [if_neg h2, ih]
          exact send_inbound c buf

/-- Writing never touches what the peer delivers. -/
theorem send_db_inbound (c : Conn) (buf : List Byte) :
    (send_db c buf).conn.inbound = c.inbound :=
  send_db_loop_inbound _ c buf

theorem send_rc_of_fail {c : Conn} {r : Int} {tl : List Int} (buf : List Byte)
    (hs : c.sendRets = r :: tl) (hr : r < 0) : (SDLNet_TCP_Send c buf).rc < 0 := by
  unfold SDLNet_TCP_Send
  rw [hs]
  simp only
  omega

theorem send_of_short {c : Conn} {x : Int} {tl : List Int} (buf : List Byte)
    (hs : c.sendRets = x :: tl) (hlt : x < buf.length) :
    (SDLNet_TCP_Send c buf).rc = x ∧ (SDLNet_TCP_Send c buf).conn.sendRets = tl := by
  unfold SDLNet_TCP_Send
  rw [hs]
  simp only
  exact ⟨by omega, trivial⟩

/-- When some send call reports an error before the buffer is written, `send_db` returns -1. -/
theorem send_db_loop_fail (r : Int) (tl : List Int) (hr : r < 0) :
    ∀ (pre : List Int) (fuel : Nat) (c : Conn) (buf : List Byte),
      c.sendRets = pre ++ r :: tl → (∀ x ∈ pre, 0 < x) → pre.sum < buf.length →
      buf.length ≤ fuel → (send_db_loop fuel c buf).rc = -1 := by
  intro pre
  induction pre with
  | nil =>
    intro fuel c buf hs _ hsum hf
    simp only [List.sum_nil, Nat.cast_pos] at hsum
    obtain ⟨f, rfl⟩ : ∃ f, fuel = f + 1 := ⟨fuel - 1, by omega⟩
    have hneg := send_rc_of_fail buf (by simpa using hs) hr
    unfold send_db_loop
    rw [if_neg (by omega)]
    simp only
    rw [if_neg (by omega), if_pos hneg]
  | cons x pre ih =>
    intro fuel c buf hs hpos hsum hf
    have hx : 0 < x := hpos x (by simp)
    have hpos' : ∀ y ∈ pre, 0 < y := fun y hy => hpos y (by simp [hy])
    have hsum' : 0 ≤ pre.sum := List.sum_nonneg (fun y hy => le_of_lt (hpos' y hy))
    simp only [List.sum_cons] at hsum
    have hlen : 0 < buf.length := by omega
    obtain ⟨f, rfl⟩ : ∃ f, fuel = f + 1 := ⟨fuel - 1, by omega⟩
    obtain ⟨hrc, htl⟩ := send_of_short (c := c) buf (by simpa using hs) (by omega)
    unfold send_db_loop
    rw [if_neg (by omega)]
    simp only
    rw [if_neg (by omega), if_neg (by omega)]
    apply ih
    · exact htl
    · exact hpos'
    · rw [List.length_drop, hrc]
      have : (x.toNat : Int) = x := Int.toNat_of_nonneg (le_of_lt hx)
      omega
    · rw [List.length_drop, hrc]
      have : (x.toNat : Int) = x := Int.toNat_of_nonneg (le_of_lt hx)
      omega

theorem send_db_rc_cases :
    ∀ (fuel : Nat) (c : Conn) (buf : List Byte),
      (send_db_loop fuel c buf).rc = 0 ∨ (send_db_loop fuel c buf).rc = -1 := by
  intro fuel
  induction fuel with
  | zero => intro c buf; exact Or.inl rfl
  | succ f ih =>
    intro c buf
    unfold send_db_loop
    by_cases h0 : buf.length = 0
    · rw [if_pos h0]; exact Or.inl rfl
    · rw [if_neg h0]
      simp only
      by_cases h1 : (SDLNet_TCP_Send c buf).rc = 0
      · rw [if_pos h1]; exact Or.inl rfl
      · rw [if_neg h1]
        by_cases h2 : (SDLNet_TCP_Send c buf).rc < 0
        · rw [if_pos h2]; exact Or.inr rfl
        · rw [if_neg h2]; exact ih _ _

theorem send_rc_nonneg {c : Conn} (buf : List Byte) (h : ∀ r ∈ c.sendRets, 0 ≤ r) :
    0 ≤ (SDLNet_TCP_Send c buf).rc ∧ ∀ r ∈ (SDLNet_TCP_Send c buf).conn.sendRets, 0 ≤ r := by
  unfold SDLNet_TCP_Send
  cases hs : c.sendRets with
  | nil =>
    simp only
    exact ⟨by omega, by simp⟩
  | cons r rs =>
    simp only
    rw [hs] at h
    have hr : 0 ≤ r := h r (by simp)
    exact ⟨by omega, fun y hy => h y (by simp [hy])⟩

/-- When no send call reports an error, `send_db` returns 0. -/
theorem send_db_loop_ok :
    ∀ (fuel : Nat) (c : Conn) (buf : List Byte),
      (∀ r ∈ c.sendRets, 0 ≤ r) → (send_db_loop fuel c buf).rc = 0 := by
  intro fuel
  induction fuel with
  | zero => intro c buf _; rfl
  | succ f ih =>
    intro c buf h
    obtain ⟨hnn, hrest⟩ := send_rc_nonneg buf h
    unfold send_db_loop
    by_cases h0 : buf.length = 0
    · rw [if_pos h0]
    · rw [if_neg h0]
      simp only
      by_cases h1 : (SDLNet_TCP_Send c buf).rc = 0
      · rw [if_pos h1]
      · rw [if_neg h1, if_neg (by omega)]
        exact ih _ _ hrest

/-! ## Reading a reply -/

/-- On a stream that delivers `s`, free of NUL, and then a NUL, the loop either fails or
stores `s` with its terminator and leaves the rest of the stream. -/
theorem readstring_loop_cases (E : Env) (rest : List Byte) (post : List (List Byte)) :
    ∀ (s : List Byte) (fuel : Nat) (c : Conn) (str : List Byte) (size : Nat),
      (0 : Byte) ∉ s → Delivers c.inbound (s ++ 0 :: rest) post → s.length < fuel →
      ∃ r, readstring_loop E fuel c str size = some r ∧
        ((r.rc = -1 ∧ r.str = none) ∨
          (r.rc = ((str.length + s.length + 1 : Nat) : Int) ∧ r.str = some (str ++ s ++ [0]) ∧
            Delivers r.conn.inbound rest post)) := by
  intro s
  induction s with
  | nil =>
    intro fuel c str size _ hd hf
    obtain ⟨f, rfl⟩ : ∃ f, fuel = f + 1 := ⟨fuel - 1, by simp at hf; omega⟩
    unfold readstring_loop
    cases hg : grow E str.length size with
    | none => exact ⟨_, rfl, Or.inl ⟨rfl, rfl⟩⟩
    | some size1 =>
      obtain ⟨inb, hdi, hrecv⟩ := recv_one_of_delivers (by simpa using hd)
      refine ⟨⟨((str.length + 1 : Nat) : Int), some (str ++ [0]), { c with inbound := inb }⟩,
        ?_, Or.inr ⟨by simp, by simp, hdi⟩⟩
      simp [hrecv]
  | cons b bs ih =>
    intro fuel c str size h0 hd hf
    obtain ⟨f, rfl⟩ : ∃ f, fuel = f + 1 := ⟨fuel - 1, by simp at hf; omega⟩
    have hb0 : b ≠ 0 := fun e => h0 (by simp [e])
    have hbs : (0 : Byte) ∉ bs := fun e => h0 (by simp [e])
    simp only [List.length_cons] at hf
    unfold readstring_loop
    cases hg : grow E str.length size with
    | none => exact ⟨_, rfl, Or.inl ⟨rfl, rfl⟩⟩
    | some size1 =>
      obtain ⟨inb, hdi, hrecv⟩ := recv_one_of_delivers (by simpa using hd)
      obtain ⟨r, hr, hcases⟩ :=
        ih f { c with inbound := inb } (str ++ [b]) size1 hbs hdi (by omega)
      refine ⟨r, ?_, ?_⟩
      · simp only [hrecv, List.headD_cons, hb0, if_false]
        rw [if_neg (by decide)]
        exact hr
      · rcases hcases with h | ⟨h1, h2, h3⟩
        · exact Or.inl h
        · refine Or.inr ⟨?_, ?_, h3⟩
          · rw [h1]
            simp only [List.length_append, List.length_cons, List.length_nil]
            omega
          · rw [h2]
            simp

/-- On a stream that delivers `s`, free of NUL, and then ends, the loop fails. -/
theorem readstring_loop_ends (E : Env) (post : List (List Byte)) (hp : Ends post) :
    ∀ (s : List Byte) (fuel : Nat) (c : Conn) (str : List Byte) (size : Nat),
      (0 : Byte) ∉ s → Delivers c.inbound s post → s.length < fuel →
      ∃ r, readstring_loop E fuel c str size = some r ∧ r.rc = -1 ∧ r.str = none := by
  intro s
  induction s with
  | nil =>
    intro fuel c str size _ hd hf
    obtain ⟨f, rfl⟩ : ∃ f, fuel = f + 1 := ⟨fuel - 1, by simp at hf; omega⟩
    have hin : c.inbound = post := Delivers.nil_iff.mp hd
    have hrc := recv_of_ends (c := c) (by rw [hin]; exact hp) 1
    unfold readstring_loop
    cases hg : grow E str.length size with
    | none => exact ⟨_, rfl, rfl, rfl⟩
    | some size1 =>
      simp only
      rw [if_pos hrc]
      exact ⟨_, rfl, rfl, rfl⟩
  | cons b bs ih =>
    intro fuel c str size h0 hd hf
    obtain ⟨f, rfl⟩ : ∃ f, fuel = f + 1 := ⟨fuel - 1, by simp at hf; omega⟩
    have hb0 : b ≠ 0 := fun e => h0 (by simp [e])
    have hbs : (0 : Byte) ∉ bs := fun e => h0 (by simp [e])
    simp only [List.length_cons] at hf
    unfold readstring_loop
    cases hg : grow E str.length size with
    | none => exact ⟨_, rfl, rfl, rfl⟩
    | some size1 =>
      obtain ⟨inb, hdi, hrecv⟩ := recv_one_of_delivers hd
      obtain ⟨r, hr, hrc, hstr⟩ :=
        ih f { c with inbound := inb } (str ++ [b]) size1 hbs hdi (by omega)
      refine ⟨r, ?_, hrc, hstr⟩
      simp only [hrecv, List.headD_cons, hb0, if_false]
      rw [if_neg (by decide)]
      exact hr

/-- The reader on a field followed by its terminator: it fails, or returns the field. -/
theorem readstring_cases (E : Env) {c : Conn} {s rest : List Byte} {post : List (List Byte)}
    (h0 : (0 : Byte) ∉ s) (hd : Delivers c.inbound (s ++ 0 :: rest) post) :
    ((readstring E c).rc = -1 ∧ (readstring E c).str = none) ∨
      ((readstring E c).rc = ((s.length + 1 : Nat) : Int) ∧
        (readstring E c).str = some (s ++ [0]) ∧
        Delivers (readstring E c).conn.inbound rest post) := by
  have hfuel : s.length < c.inbound.flatten.length + 1 := by
    have := hd.length_le
    rw [List.length_append, List.length_cons] at this
    omega
  obtain ⟨r, hr, h⟩ := readstring_loop_cases E rest post s _ c [] 32 h0 hd hfuel
  have hloop := readstring_eq_of_loop E c
  rw [hr] at hloop
  have hrr : r = readstring E c := by simpa using hloop
  subst hrr
  simpa using h

/-- The reader on a stream that ends before a terminator fails. -/
theorem readstring_ends (E : Env) {c : Conn} {s : List Byte} {post : List (List Byte)}
    (h0 : (0 : Byte) ∉ s) (hd : Delivers c.inbound s post) (hp : Ends post) :
    (readstring E c).rc = -1 ∧ (readstring E c).str = none := by
  have hfuel : s.length < c.inbound.flatten.length + 1 := by
    have := hd.length_le
    omega
  obtain ⟨r, hr, h⟩ := readstring_loop_ends E post hp s _ c [] 32 h0 hd hfuel
  have hloop := readstring_eq_of_loop E c
  rw [hr] at hloop
  have hrr : r = readstring E c := by simpa using hloop
  subst hrr
  exact h

theorem charToInt_eq_zero (E : Env) (b : Byte) : charToInt E b = 0 ↔ b = 0 := by
  have hb := b.isLt
  unfold charToInt
  constructor
  · intro h
    apply Fin.ext
    show b.val = 0
    split_ifs at h <;> omega
  · rintro rfl
    simp

theorem charToInt_eq_one (E : Env) (b : Byte) : charToInt E b = 1 ↔ b = 1 := by
  have hb := b.isLt
  unfold charToInt
  constructor
  · intro h
    apply Fin.ext
    show b.val = 1
    split_ifs at h <;> omega
  · rintro rfl
    simp

/-- The status read on a stream whose next byte is `b`. -/
theorem basex_status_of_delivers (E : Env) {c : Conn} {b : Byte} {rest : List Byte}
    {post : List (List Byte)} (hd : Delivers c.inbound (b :: rest) post) :
    ∃ inb, Delivers inb rest post ∧
      basex_status E c = ⟨charToInt E b, { c with inbound := inb }⟩ := by
  obtain ⟨inb, hdi, hrecv⟩ := recv_one_of_delivers hd
  refine ⟨inb, hdi, ?_⟩
  unfold basex_status
  simp only [hrecv, List.headD_cons]
  rw [if_neg (by decide)]

/-- The status read on a stream that has ended. -/
theorem basex_status_of_ends (E : Env) {c : Conn} (h : Ends c.inbound) :
    (basex_status E c).rc = -1 := by
  unfold basex_status
  simp only
  rw [if_pos (recv_of_ends h 1)]

/-! ## Command execution: claims C1, C2 and C10 -/

/-- What `basex_execute` does with a complete reply `result NUL info NUL st`. -/
theorem basex_execute_reply (E : Env) (hS : 16777216 ≤ E.SIZE_MAX)
    (hR : ∀ n, E.realloc_ok n = true) {c : Conn} (command : List Byte)
    {result info rest : List Byte} {post : List (List Byte)} (st : Byte)
    (hsend : ∀ r ∈ c.sendRets, 0 ≤ r)
    (hr0 : (0 : Byte) ∉ result) (hi0 : (0 : Byte) ∉ info)
    (hrl : result.length ≤ 8388606) (hil : info.length ≤ 8388606)
    (hd : Delivers c.inbound (result ++ 0 :: (info ++ 0 :: st :: rest)) post) :
    ∃ inb, Delivers inb rest post ∧
      basex_execute E c command =
        (if charToInt E st = -1 then
          ExecResult.returned (-1) none none
            { (send_db c (cstr command ++ [0])).conn with inbound := inb }
        else if charToInt E st = 0 ∨ charToInt E st = 1 then
          ExecResult.returned (charToInt E st)
            (if charToInt E st = 1 then none else some (result ++ [0])) (some (info ++ [0]))
            { (send_db c (cstr command ++ [0])).conn with inbound := inb }
        else
          ExecResult.assert_failed
            { (send_db c (cstr command ++ [0])).conn with inbound := inb }) := by
  have hs0 : (send_db c (cstr command ++ [0])).rc = 0 := send_db_loop_ok _ c _ hsend
  have hin := send_db_inbound c (cstr command ++ [0])
  obtain ⟨inb1, hd1, h1⟩ :=
    readstring_of_delivers E hS hR (c := (send_db c (cstr command ++ [0])).conn) hr0 hrl
      (by rw [hin]; exact hd)
  obtain ⟨inb2, hd2, h2⟩ :=
    readstring_of_delivers E hS hR
      (c := { (send_db c (cstr command ++ [0])).conn with inbound := inb1 }) hi0 hil hd1
  obtain ⟨inb3, hd3, h3⟩ :=
    basex_status_of_delivers E
      (c := { (send_db c (cstr command ++ [0])).conn with inbound := inb2 }) hd2
  refine ⟨inb3, hd3, ?_⟩
  unfold basex_execute
  simp only [hs0, h1, h2, h3]
  rw [if_neg (by decide), if_neg (by omega), if_neg (by omega)]

theorem charToInt_zero (E : Env) : charToInt E 0 = 0 := (charToInt_eq_zero E 0).mpr rfl

theorem charToInt_one (E : Env) : charToInt E 1 = 1 := (charToInt_eq_one E 1).mpr rfl

/-- C1: a successful command.  For every command and every reply `result NUL info NUL 0x00`
(result and info free of NUL and at most 8388606 bytes long, delivered in any chunking, no
send reporting an error, memory available), `basex_execute` returns 0 with `*result` the
result bytes and `*info` the info bytes (each with its terminator), and
`BaseXSession::execute` returns exactly the result bytes, empty fields included. -/
theorem basex_execute_success (E : Env) (hS : 16777216 ≤ E.SIZE_MAX)
    (hR : ∀ n, E.realloc_ok n = true) (c : Conn) (command result info rest : List Byte)
    (post : List (List Byte)) (m : Bool) (hsend : ∀ r ∈ c.sendRets, 0 ≤ r)
    (hr0 : (0 : Byte) ∉ result) (hi0 : (0 : Byte) ∉ info)
    (hrl : result.length ≤ 8388606) (hil : info.length ≤ 8388606)
    (hd : Delivers c.inbound (result ++ 0 :: (info ++ 0 :: 0 :: rest)) post) :
    (∃ c1, basex_execute E c command =
        .returned 0 (some (result ++ [0])) (some (info ++ [0])) c1) ∧
      (BaseXSession.execute E ⟨m, some c⟩ command).1 = .returned result := by
  obtain ⟨inb, -, h⟩ := basex_execute_reply E hS hR command 0 hsend hr0 hi0 hrl hil hd
  rw [charToInt_zero] at h
  rw [if_neg (by decide), if_pos (Or.inl rfl), if_neg (by decide)] at h
  refine ⟨⟨_, h⟩, ?_⟩
  unfold BaseXSession.execute
  simp only [h]
  rw [if_neg (by decide), if_neg (by decide)]
  simpa using cstr_append_nul result [] hr0

/-- Witness for C1: command `a`, reply with empty result and info `i`, delivered byte by byte
behind a transport that first accepts a single byte. -/
theorem basex_execute_success_witness :
    (∃ c1, basex_execute refEnv ⟨[[0], [105], [0], [0]], [1], [], false⟩ [97] =
        .returned 0 (some ([] ++ [0])) (some ([105] ++ [0])) c1) ∧
      (BaseXSession.execute refEnv ⟨false, some ⟨[[0], [105], [0], [0]], [1], [], false⟩⟩
        [97]).1 = .returned [] :=
  basex_execute_success refEnv (by decide) (fun _ => rfl)
    ⟨[[0], [105], [0], [0]], [1], [], false⟩ [97] [] [105] [] [] false (by decide) (by decide)
    (by decide) (by decide) (by decide)
    ⟨[[0], [105], [0], [0]], by decide, by decide, by decide⟩

/-- C2 at a failing input: the reply `a NUL b NUL 0x02`.  The status byte is nonzero, yet
`basex_execute` does not return a value above 0 with `*result = NULL`: the result buffer is
not released (that is done for `rc == 1` only) and the assertion `rc == 0 || rc == 1` fails,
so that `BaseXSession::execute` raises no `BaseXCommandError`.  With the status byte 0xFF,
read as -1 where `char` is signed, the reply is reported as a lost connection.  With 0x01
the same reply gives 1, `NULL` and the info bytes. -/
theorem basex_execute_status_two :
    basex_execute refEnv ⟨[[97, 0, 98, 0, 2]], [], [], false⟩ [120] =
        .assert_failed ⟨[], [], [120, 0], false⟩ ∧
      (BaseXSession.execute refEnv ⟨false, some ⟨[[97, 0, 98, 0, 2]], [], [], false⟩⟩
        [120]).1 = .aborted ∧
      (BaseXSession.execute refEnv ⟨false, some ⟨[[97, 0, 98, 0, 2]], [], [], false⟩⟩
        [120]).1 ≠ .threw (.BaseXCommandError [98]) ∧
      basex_execute refEnv ⟨[[97, 0, 98, 0, 255]], [], [], false⟩ [120] =
        .returned (-1) none none ⟨[], [], [120, 0], false⟩ ∧
      (BaseXSession.execute refEnv ⟨false, some ⟨[[97, 0, 98, 0, 255]], [], [], false⟩⟩
        [120]).1 = .threw (.BaseXNetworkError "Connection to BaseX server lost") ∧
      basex_execute refEnv ⟨[[97, 0, 98, 0, 1]], [], [], false⟩ [120] =
        .returned 1 none (some [98, 0]) ⟨[], [], [120, 0], false⟩ := by
  decide

/-- What `basex_execute` does with a reply `result NUL info NUL st`, `st` nonzero, when
assertions are enabled: for `st` 0x01 it returns 1 with `*result = NULL` and `*info` the info
bytes, and `BaseXSession::execute` raises `BaseXCommandError(info)`; for a byte read as -1 it
reports a lost connection; for every other value the assertion `rc == 0 || rc == 1` fails. -/
theorem basex_execute_failure_status (E : Env) (hS : 16777216 ≤ E.SIZE_MAX)
    (hR : ∀ n, E.realloc_ok n = true) (c : Conn) (command result info rest : List Byte)
    (post : List (List Byte)) (m : Bool) (st : Byte) (hst : st ≠ 0)
    (hsend : ∀ r ∈ c.sendRets, 0 ≤ r)
    (hr0 : (0 : Byte) ∉ result) (hi0 : (0 : Byte) ∉ info)
    (hrl : result.length ≤ 8388606) (hil : info.length ≤ 8388606)
    (hd : Delivers c.inbound (result ++ 0 :: (info ++ 0 :: st :: rest)) post) :
    (st = 1 →
        (∃ c1, basex_execute E c command = .returned 1 none (some (info ++ [0])) c1) ∧
        (BaseXSession.execute E ⟨m, some c⟩ command).1 = .threw (.BaseXCommandError info)) ∧
      (st ≠ 1 → charToInt E st ≠ -1 →
        (∃ c1, basex_execute E c command = .assert_failed c1) ∧
        (BaseXSession.execute E ⟨m, some c⟩ command).1 = .aborted) ∧
      (charToInt E st = -1 →
        (∃ c1, basex_execute E c command = .returned (-1) none none c1) ∧
        (BaseXSession.execute E ⟨m, some c⟩ command).1 =
          .threw (.BaseXNetworkError "Connection to BaseX server lost")) := by
  obtain ⟨inb, -, h⟩ := basex_execute_reply E hS hR command st hsend hr0 hi0 hrl hil hd
  have hz : charToInt E st ≠ 0 := fun e => hst ((charToInt_eq_zero E st).mp e)
  refine ⟨?_, ?_, ?_⟩
  · rintro rfl
    rw [charToInt_one] at h
    rw [if_neg (by decide), if_pos (Or.inr rfl), if_pos rfl] at h
    refine ⟨⟨_, h⟩, ?_⟩
    unfold BaseXSession.execute
    simp only [h]
    rw [if_neg (by decide), if_pos (by decide)]
    simpa using cstr_append_nul info [] hi0
  · intro h1 hm1
    have ho : charToInt E st ≠ 1 := fun e => h1 ((charToInt_eq_one E st).mp e)
    rw [if_neg hm1, if_neg (by rintro (e | e) <;> contradiction)] at h
    refine ⟨⟨_, h⟩, ?_⟩
    unfold BaseXSession.execute
    simp only [h]
  · intro hm1
    rw [if_pos hm1] at h
    refine ⟨⟨_, h⟩, ?_⟩
    unfold BaseXSession.execute
    simp only [h]
    rw [if_pos trivial]

/-- The failure status at work: the reply `r NUL e NUL 0x01`. -/
theorem basex_execute_failure_status_witness :
    (∃ c1, basex_execute refEnv ⟨[[114, 0, 101, 0, 1]], [], [], false⟩ [120] =
        .returned 1 none (some ([101] ++ [0])) c1) ∧
      (BaseXSession.execute refEnv ⟨false, some ⟨[[114, 0, 101, 0, 1]], [], [], false⟩⟩
        [120]).1 = .threw (.BaseXCommandError [101]) :=
  (basex_execute_failure_status refEnv (by decide) (fun _ => rfl)
    ⟨[[114, 0, 101, 0, 1]], [], [], false⟩ [120] [114] [101] [] [] false 1 (by decide)
    (by decide) (by decide) (by decide) (by decide) (by decide)
    ⟨[[114, 0, 101, 0, 1]], by decide, by decide, by decide⟩).1 rfl

/-- Whenever `basex_execute` returns -1 the session's `execute` raises the network error. -/
theorem execute_of_failure (E : Env) (m : Bool) {c c1 : Conn} {command : List Byte}
    {result info : Option (List Byte)}
    (h : basex_execute E c command = .returned (-1) result info c1) :
    (BaseXSession.execute E ⟨m, some c⟩ command).1 =
      .threw (.BaseXNetworkError "Connection to BaseX server lost") := by
  unfold BaseXSession.execute
  simp only [h]
  rw [if_pos trivial]

/-- The transport failures that `basex_execute` reports.  For every command and every build,
if a send call returns a negative value before the command frame is written, or the stream
ends (connection closed or receive fault) inside the result field, inside the info field, or
right before the status byte, then `basex_execute` returns -1 with `*result` and `*info` both
`NULL`, and `BaseXSession::execute` raises `BaseXNetworkError`. -/
theorem basex_execute_transport_failure (E : Env) (c : Conn) (command : List Byte) (m : Bool)
    (h : (∃ pre r tl, c.sendRets = pre ++ r :: tl ∧ (∀ x ∈ pre, 0 < x) ∧
            pre.sum < (((cstr command).length + 1 : Nat) : Int) ∧ r < 0) ∨
         (∃ p post, Delivers c.inbound p post ∧ Ends post ∧ (0 : Byte) ∉ p) ∨
         (∃ result p post, Delivers c.inbound (result ++ 0 :: p) post ∧ Ends post ∧
            (0 : Byte) ∉ result ∧ (0 : Byte) ∉ p) ∨
         (∃ result info post, Delivers c.inbound (result ++ 0 :: (info ++ [0])) post ∧
            Ends post ∧ (0 : Byte) ∉ result ∧ (0 : Byte) ∉ info)) :
    (∃ c1, basex_execute E c command = .returned (-1) none none c1) ∧
      (BaseXSession.execute E ⟨m, some c⟩ command).1 =
        .threw (.BaseXNetworkError "Connection to BaseX server lost") := by
  have key : ∃ c1, basex_execute E c command = .returned (-1) none none c1 := by
    have hin := send_db_inbound c (cstr command ++ [0])
    unfold basex_execute
    simp only
    by_cases hs : (send_db c (cstr command ++ [0])).rc = -1
    · rw [if_pos hs]
      exact ⟨_, rfl⟩
    rw [if_neg hs]
    rcases h with ⟨pre, r, tl, hsr, hpos, hsum, hr⟩ | ⟨p, post, hd, hp, h0⟩ |
      ⟨result, p, post, hd, hp, hr0, h0⟩ | ⟨result, info, post, hd, hp, hr0, hi0⟩
    · exfalso
      apply hs
      exact send_db_loop_fail r tl hr pre _ c _ hsr hpos (by simpa using hsum) (le_refl _)
    · have h1 := readstring_ends E (c := (send_db c (cstr command ++ [0])).conn) h0
        (by rw [hin]; exact hd) hp
      rw [if_pos h1.1]
      exact ⟨_, rfl⟩
    · rcases readstring_cases E (c := (send_db c (cstr command ++ [0])).conn) hr0
          (by rw [hin]; exact hd) with h1 | ⟨h1, -, hd1⟩
      · rw [if_pos h1.1]
        exact ⟨_, rfl⟩
      · rw [if_neg (by rw [h1]; omega)]
        have h2 := readstring_ends E h0 hd1 hp
        rw [if_pos h2.1]
        exact ⟨_, rfl⟩
    · rcases readstring_cases E (c := (send_db c (cstr command ++ [0])).conn) hr0
          (by rw [hin]; exact hd) with h1 | ⟨h1, -, hd1⟩
      · rw [if_pos h1.1]
        exact ⟨_, rfl⟩
      · rw [if_neg (by rw [h1]; omega)]
        rcases readstring_cases E hi0 hd1 with h2 | ⟨h2, -, hd2⟩
        · rw [if_pos h2.1]
          exact ⟨_, rfl⟩
        · rw [if_neg (by rw [h2]; omega)]
          have hend : Ends (readstring E (readstring E
              (send_db c (cstr command ++ [0])).conn).conn).conn.inbound := by
            rw [Delivers.nil_iff.mp hd2]
            exact hp
          rw [if_pos (basex_status_of_ends E hend)]
          exact ⟨_, rfl⟩
  obtain ⟨c1, hc1⟩ := key
  exact ⟨⟨c1, hc1⟩, execute_of_failure E m hc1⟩

/-- Two reported failures: the connection is closed after `r NUL i NUL`, before the status
byte; and a send that returns -1 after two accepted bytes. -/
theorem basex_execute_transport_failure_witness :
    ((∃ c1, basex_execute refEnv ⟨[[114, 0], [105, 0]], [], [], false⟩ [120] =
        .returned (-1) none none c1) ∧
      (BaseXSession.execute refEnv ⟨false, some ⟨[[114, 0], [105, 0]], [], [], false⟩⟩
        [120]).1 = .threw (.BaseXNetworkError "Connection to BaseX server lost")) ∧
    ((∃ c1, basex_execute refEnv ⟨[[114, 0, 105, 0, 0]], [2, -1], [], false⟩ [120, 121, 122] =
        .returned (-1) none none c1) ∧
      (BaseXSession.execute refEnv ⟨false, some ⟨[[114, 0, 105, 0, 0]], [2, -1], [], false⟩⟩
        [120, 121, 122]).1 = .threw (.BaseXNetworkError "Connection to BaseX server lost")) :=
  ⟨basex_execute_transport_failure refEnv ⟨[[114, 0], [105, 0]], [], [], false⟩ [120] false
      (Or.inr (Or.inr (Or.inr ⟨[114], [105], [],
        ⟨[[114, 0], [105, 0]], by decide, by decide, by decide⟩, Or.inl rfl,
        by decide, by decide⟩))),
   basex_execute_transport_failure refEnv ⟨[[114, 0, 105, 0, 0]], [2, -1], [], false⟩
      [120, 121, 122] false
      (Or.inl ⟨[2], -1, [], rfl, by decide, by decide, by decide⟩)⟩

/-- C10 at a failing input: the command `x y z` on a transport whose send accepts two bytes
and then reports 0, a failed send, while the reply `r NUL i NUL 0x00` can be read.
`send_db` returns 0 with the command cut short, `basex_execute` does not return -1 with
`NULL`s but 0 with the result and the info, and `BaseXSession::execute` returns the result
instead of raising `BaseXNetworkError`.  The same happens when the first send reports 0. -/
theorem basex_execute_send_reports_zero :
    send_db ⟨[[114, 0], [105, 0, 0]], [2, 0], [], false⟩ (cstr [120, 121, 122] ++ [0]) =
        ⟨0, ⟨[[114, 0], [105, 0, 0]], [], [120, 121], false⟩⟩ ∧
      basex_execute refEnv ⟨[[114, 0], [105, 0, 0]], [2, 0], [], false⟩ [120, 121, 122] =
        .returned 0 (some [114, 0]) (some [105, 0]) ⟨[], [], [120, 121], false⟩ ∧
      (BaseXSession.execute refEnv ⟨false, some ⟨[[114, 0], [105, 0, 0]], [2, 0], [], false⟩⟩
        [120, 121, 122]).1 = .returned [114] ∧
      (BaseXSession.execute refEnv ⟨false, some ⟨[[114, 0], [105, 0, 0]], [0], [], false⟩⟩
        [120, 121, 122]).1 = .returned [114] ∧
      (BaseXSession.execute refEnv ⟨false, some ⟨[[114, 0], [105, 0, 0]], [2, 0], [], false⟩⟩
        [120, 121, 122]).1 ≠ .threw (.BaseXNetworkError "Connection to BaseX server lost") := by
  decide

/-! ## Authentication: claims C3, C4, C5 and C9 -/

theorem recv_keeps_sending (c : Conn) (n : Nat) :
    (SDLNet_TCP_Recv c n).conn.sendRets = c.sendRets ∧
      (SDLNet_TCP_Recv c n).conn.outbound = c.outbound := by
  unfold SDLNet_TCP_Recv
  rcases hi : c.inbound with _ | ⟨ch, rest⟩
  · simp
  · cases ch with
    | nil => simp
    | cons x xs =>
      simp only
      split <;> simp

/-- A send on a transport whose script is exhausted accepts the whole buffer. -/
theorem send_healthy {c : Conn} (buf : List Byte) (h : c.sendRets = []) :
    SDLNet_TCP_Send c buf = ⟨(buf.length : Int), { c with outbound := c.outbound ++ buf }⟩ := by
  unfold SDLNet_TCP_Send
  rw [h]

theorem strchr_none {s : List Byte} {ch : Byte} (h : ch ∉ s) : strchr s ch = none := by
  induction s with
  | nil => rfl
  | cons b bs ih =>
    have hb : b ≠ ch := fun e => h (by simp [e])
    have hbs : ch ∉ bs := fun e => h (by simp [e])
    simp [strchr, hb, ih hbs]

theorem strchr_append {realm : List Byte} (t : List Byte) {ch : Byte} (h : ch ∉ realm) :
    strchr (realm ++ ch :: t) ch = some realm.length := by
  induction realm with
  | nil => simp [strchr]
  | cons b bs ih =>
    have hb : b ≠ ch := fun e => h (by simp [e])
    have hbs : ch ∉ bs := fun e => h (by simp [e])
    simp [strchr, hb, ih hbs]

theorem basex_status_outbound (E : Env) (c : Conn) :
    (basex_status E c).conn.outbound = c.outbound := by
  unfold basex_status
  simp only
  split <;> exact (recv_keeps_sending c 1).2

/-- The status part of `basex_authenticate` returns, and keeps what was sent. -/
theorem basex_authenticate_of_sent (E : Env) {c c3 : Conn} {user passwd : List Byte}
    (h : basex_authenticate_request E c user passwd = .sent c3) :
    ∃ rc c4, basex_authenticate E c user passwd = .returned rc c4 ∧
      c4.outbound = c3.outbound := by
  unfold basex_authenticate
  simp only [h]
  split_ifs
  · exact ⟨_, _, rfl, basex_status_outbound E c3⟩
  · exact ⟨_, _, rfl, basex_status_outbound E c3⟩
  · exact ⟨_, _, rfl, basex_status_outbound E c3⟩

/-- C3: the realm variant of the handshake.  For every challenge token `realm:timestamp`
(`realm` the bytes before the first `:`; later `:` stay in `timestamp`), on a transport that
accepts what it is given, `basex_authenticate` sends exactly the user name with its
terminator followed by `md5(md5(user:realm:passwd) ++ timestamp)` with its terminator,
whatever the digest primitive is. -/
theorem basex_authenticate_realm (E : Env) (c : Conn) (user passwd realm timestamp d1 d2 : List Byte)
    (hrc : 0 < (SDLNet_TCP_Recv c E.BUFSIZ).rc)
    (hov : (SDLNet_TCP_Recv c E.BUFSIZ).data.length < E.BUFSIZ ∨
      (0 : Byte) ∈ (SDLNet_TCP_Recv c E.BUFSIZ).data)
    (htok : cstr (SDLNet_TCP_Recv c E.BUFSIZ).data = realm ++ 58 :: timestamp)
    (hrealm : (58 : Byte) ∉ realm) (hsend : c.sendRets = [])
    (hu : (0 : Byte) ∉ user) (hp : (0 : Byte) ∉ passwd)
    (h1 : md5 E (user ++ [58] ++ realm ++ [58] ++ passwd) = some d1)
    (h2 : md5 E (d1 ++ timestamp) = some d2) :
    basex_authenticate_request E c user passwd =
        .sent { (SDLNet_TCP_Recv c E.BUFSIZ).conn with
          outbound := c.outbound ++ (user ++ [0]) ++ (d2 ++ [0]) } ∧
      ∃ rc c4, basex_authenticate E c user passwd = .returned rc c4 ∧
        c4.outbound = c.outbound ++ (user ++ [0]) ++ (d2 ++ [0]) := by
  have hreq : basex_authenticate_request E c user passwd =
      .sent { (SDLNet_TCP_Recv c E.BUFSIZ).conn with
        outbound := c.outbound ++ (user ++ [0]) ++ (d2 ++ [0]) } := by
    obtain ⟨hsr, hob⟩ := recv_keeps_sending c E.BUFSIZ
    have hnov : ¬ (E.BUFSIZ ≤ (SDLNet_TCP_Recv c E.BUFSIZ).data.length ∧
        (0 : Byte) ∉ (SDLNet_TCP_Recv c E.BUFSIZ).data) := by
      rintro ⟨ha, hb⟩
      rcases hov with h | h
      · omega
      · exact hb h
    have hs1 := send_healthy (c := (SDLNet_TCP_Recv c E.BUFSIZ).conn) (cstr user ++ [0])
      (by rw [hsr, hsend])
    unfold basex_authenticate_request
    simp only [htok, hs1]
    rw [if_neg (by omega), if_neg hnov, if_neg (by simp)]
    rw [strchr_append timestamp hrealm]
    simp only [cstr_of_not_mem user hu, cstr_of_not_mem passwd hp, List.take_left', h1,
      Option.map_some']
    have hdrop : (realm ++ 58 :: timestamp).drop (realm.length + 1) = timestamp := by
      rw [show realm ++ 58 :: timestamp = (realm ++ [58]) ++ timestamp by simp]
      exact List.drop_left' (by simp)
    have hlen : (realm ++ 58 :: timestamp).length - realm.length - 1 = timestamp.length := by
      simp only [List.length_append, List.length_cons]
      omega
    simp only [hdrop, hlen, List.take_length, h2]
    rw [send_healthy _ (by exact hsr.trans hsend)]
    rw [if_neg (by simp only [List.length_append, List.length_cons, List.length_nil]; omega)]
    simp [hob]
  refine ⟨hreq, ?_⟩
  obtain ⟨rc, c4, h4, ho⟩ := basex_authenticate_of_sent E hreq
  exact ⟨rc, c4, h4, by rw [ho]⟩

/-- Witness for C3: user `admin`, password `admin`, token `admin:1634abf2`, which splits into
realm `admin` and timestamp `1634abf2`. -/
theorem basex_authenticate_realm_witness :
    cstr (SDLNet_TCP_Recv
        ⟨[[97, 100, 109, 105, 110, 58, 49, 54, 51, 52, 97, 98, 102, 50, 0]], [], [], false⟩
        refEnv.BUFSIZ).data =
        [97, 100, 109, 105, 110] ++ 58 :: [49, 54, 51, 52, 97, 98, 102, 50] ∧
      ∃ rc c4, basex_authenticate refEnv
          ⟨[[97, 100, 109, 105, 110, 58, 49, 54, 51, 52, 97, 98, 102, 50, 0]], [], [], false⟩
          [97, 100, 109, 105, 110] [97, 100, 109, 105, 110] = .returned rc c4 ∧
        c4.outbound = [] ++ ([97, 100, 109, 105, 110] ++ [0]) ++
          ((([97, 100, 109, 105, 110, 58, 97, 100, 109, 105, 110, 58, 97, 100, 109, 105, 110] :
              List Byte).reverse ++ [109, 100, 53] ++
            [49, 54, 51, 52, 97, 98, 102, 50]).reverse ++ [109, 100, 53] ++ [0]) :=
  ⟨by decide,
   (basex_authenticate_realm refEnv
      ⟨[[97, 100, 109, 105, 110, 58, 49, 54, 51, 52, 97, 98, 102, 50, 0]], [], [], false⟩
      [97, 100, 109, 105, 110] [97, 100, 109, 105, 110] [97, 100, 109, 105, 110]
      [49, 54, 51, 52, 97, 98, 102, 50]
      (([97, 100, 109, 105, 110, 58, 97, 100, 109, 105, 110, 58, 97, 100, 109, 105, 110] :
        List Byte).reverse ++ [109, 100, 53])
      ((([97, 100, 109, 105, 110, 58, 97, 100, 109, 105, 110, 58, 97, 100, 109, 105, 110] :
          List Byte).reverse ++ [109, 100, 53] ++
        [49, 54, 51, 52, 97, 98, 102, 50]).reverse ++ [109, 100, 53])
      (by decide) (by decide) (by decide) (by decide) rfl (by decide) (by decide)
      (by decide) (by decide)).2⟩

/-- C4: the legacy variant of the handshake.  For every challenge token without `:`, and for
every user name and password (a `:` in them plays no role), on a transport that accepts what
it is given, the response frame sent after the user name is `md5(md5(passwd) ++ token)` with
its terminator, a value in which the user name does not occur. -/
theorem basex_authenticate_legacy (E : Env) (c : Conn) (user passwd token d1 d2 : List Byte)
    (hrc : 0 < (SDLNet_TCP_Recv c E.BUFSIZ).rc)
    (hov : (SDLNet_TCP_Recv c E.BUFSIZ).data.length < E.BUFSIZ ∨
      (0 : Byte) ∈ (SDLNet_TCP_Recv c E.BUFSIZ).data)
    (htok : cstr (SDLNet_TCP_Recv c E.BUFSIZ).data = token)
    (hcolon : (58 : Byte) ∉ token) (hsend : c.sendRets = [])
    (h1 : md5 E passwd = some d1) (h2 : md5 E (d1 ++ token) = some d2) :
    basex_authenticate_request E c user passwd =
        .sent { (SDLNet_TCP_Recv c E.BUFSIZ).conn with
          outbound := c.outbound ++ (cstr user ++ [0]) ++ (d2 ++ [0]) } ∧
      ∃ rc c4, basex_authenticate E c user passwd = .returned rc c4 ∧
        c4.outbound = c.outbound ++ (cstr user ++ [0]) ++ (d2 ++ [0]) := by
  have hreq : basex_authenticate_request E c user passwd =
      .sent { (SDLNet_TCP_Recv c E.BUFSIZ).conn with
        outbound := c.outbound ++ (cstr user ++ [0]) ++ (d2 ++ [0]) } := by
    obtain ⟨hsr, hob⟩ := recv_keeps_sending c E.BUFSIZ
    have hnov : ¬ (E.BUFSIZ ≤ (SDLNet_TCP_Recv c E.BUFSIZ).data.length ∧
        (0 : Byte) ∉ (SDLNet_TCP_Recv c E.BUFSIZ).data) := by
      rintro ⟨ha, hb⟩
      rcases hov with h | h
      · omega
      · exact hb h
    have hs1 := send_healthy (c := (SDLNet_TCP_Recv c E.BUFSIZ).conn) (cstr user ++ [0])
      (by rw [hsr, hsend])
    unfold basex_authenticate_request
    simp only [htok, hs1]
    rw [if_neg (by omega), if_neg hnov, if_neg (by simp)]
    rw [strchr_none hcolon]
    simp only [h1, Option.map_some', List.take_length, h2]
    rw [send_healthy _ (by exact hsr.trans hsend)]
    rw [if_neg (by simp only [List.length_append, List.length_cons, List.length_nil]; omega)]
    simp [hob]
  refine ⟨hreq, ?_⟩
  obtain ⟨rc, c4, h4, ho⟩ := basex_authenticate_of_sent E hreq
  exact ⟨rc, c4, h4, by rw [ho]⟩

/-- Witness for C4: user `admin`, password `admin`, token `abc123`. -/
theorem basex_authenticate_legacy_witness :
    md5 refEnv [97, 100, 109, 105, 110] = some [110, 105, 109, 100, 97, 109, 100, 53] ∧
      ∃ rc c4, basex_authenticate refEnv ⟨[[97, 98, 99, 49, 50, 51, 0]], [], [], false⟩
          [97, 100, 109, 105, 110] [97, 100, 109, 105, 110] = .returned rc c4 ∧
        c4.outbound = [] ++ (cstr [97, 100, 109, 105, 110] ++ [0]) ++
          ((([110, 105, 109, 100, 97, 109, 100, 53] : List Byte) ++
            [97, 98, 99, 49, 50, 51]).reverse ++ [109, 100, 53] ++ [0]) :=
  ⟨by decide,
   (basex_authenticate_legacy refEnv ⟨[[97, 98, 99, 49, 50, 51, 0]], [], [], false⟩
      [97, 100, 109, 105, 110] [97, 100, 109, 105, 110] [97, 98, 99, 49, 50, 51]
      [110, 105, 109, 100, 97, 109, 100, 53]
      ((([110, 105, 109, 100, 97, 109, 100, 53] : List Byte) ++
        [97, 98, 99, 49, 50, 51]).reverse ++ [109, 100, 53])
      (by decide) (by decide) (by decide) (by decide) rfl (by decide) (by decide)).2⟩

/-- The status part of `basex_authenticate` on the status byte `b`. -/
theorem basex_authenticate_of_status (E : Env) {c c3 c4 : Conn} {user passwd : List Byte}
    {b : Byte} (hreq : basex_authenticate_request E c user passwd = .sent c3)
    (hst : SDLNet_TCP_Recv c3 1 = ⟨1, [b], c4⟩) :
    basex_authenticate E c user passwd = .returned (if b = 0 then 0 else -1) c4 := by
  have hstatus : basex_status E c3 = ⟨charToInt E b, c4⟩ := by
    unfold basex_status
    simp only [hst, List.headD_cons]
    rw [if_neg (by decide)]
  unfold basex_authenticate
  simp only [hreq, hstatus]
  by_cases hb : b = 0
  · subst hb
    rw [charToInt_zero, if_neg (by decide), if_neg (by decide), if_pos rfl]
  · have hne : charToInt E b ≠ 0 := fun e => hb ((charToInt_eq_zero E b).mp e)
    rw [if_neg hb]
    by_cases hm : charToInt E b = -1
    · rw [if_pos hm]
    · rw [if_neg hm, if_pos hne]

/-- C5: the authentication status.  For every handshake that gets as far as the status read
(challenge received, both frames accepted, both digests computed) and in which that read
delivers the byte `b`, `basex_authenticate` returns 0 when `b` is 0x00 and -1 for every
other value of `b`. -/
theorem basex_authenticate_status (E : Env) (c c3 c4 : Conn) (user passwd : List Byte)
    (b : Byte) (hreq : basex_authenticate_request E c user passwd = .sent c3)
    (hst : SDLNet_TCP_Recv c3 1 = ⟨1, [b], c4⟩) :
    (b = 0 → basex_authenticate E c user passwd = .returned 0 c4) ∧
      (b ≠ 0 → basex_authenticate E c user passwd = .returned (-1) c4) ∧
      (basex_authenticate E c user passwd = .returned 0 c4 ↔ b = 0) := by
  have h := basex_authenticate_of_status E hreq hst
  have hz : b = 0 → basex_authenticate E c user passwd = .returned 0 c4 := by
    intro hb
    rw [h, if_pos hb]
  have hnz : b ≠ 0 → basex_authenticate E c user passwd = .returned (-1) c4 := by
    intro hb
    rw [h, if_neg hb]
  refine ⟨hz, hnz, ⟨fun h0 => ?_, hz⟩⟩
  by_contra hb
  rw [hnz hb] at h0
  simp at h0

/-- Witness for C5: the legacy handshake on token `abc123` answered with status 0x00. -/
theorem basex_authenticate_status_witness :
    basex_authenticate refEnv ⟨[[97, 98, 99, 49, 50, 51, 0], [0]], [], [], false⟩
        [97, 100, 109, 105, 110] [97, 100, 109, 105, 110] =
      .returned 0 ⟨[], [], [97, 100, 109, 105, 110, 0, 51, 50, 49, 99, 98, 97, 53, 100, 109,
        97, 100, 109, 105, 110, 109, 100, 53, 0], false⟩ :=
  (basex_authenticate_status refEnv ⟨[[97, 98, 99, 49, 50, 51, 0], [0]], [], [], false⟩
    ⟨[[0]], [], [97, 100, 109, 105, 110, 0, 51, 50, 49, 99, 98, 97, 53, 100, 109,
        97, 100, 109, 105, 110, 109, 100, 53, 0], false⟩
    ⟨[], [], [97, 100, 109, 105, 110, 0, 51, 50, 49, 99, 98, 97, 53, 100, 109,
        97, 100, 109, 105, 110, 109, 100, 53, 0], false⟩
    [97, 100, 109, 105, 110] [97, 100, 109, 105, 110] 0 (by decide) (by decide)).1 rfl

/-- Short of an overrun of the challenge buffer, the request part either returns -1 or reaches
the status read with the inbound stream as the challenge receive left it. -/
theorem basex_authenticate_request_cases (E : Env) (c : Conn) (user passwd : List Byte)
    (hov : (SDLNet_TCP_Recv c E.BUFSIZ).data.length < E.BUFSIZ ∨
      (0 : Byte) ∈ (SDLNet_TCP_Recv c E.BUFSIZ).data) :
    (∃ c1, basex_authenticate_request E c user passwd = .exit (.returned (-1) c1)) ∨
      (∃ c3, basex_authenticate_request E c user passwd = .sent c3 ∧
        c3.inbound = (SDLNet_TCP_Recv c E.BUFSIZ).conn.inbound) := by
  have hnov : ¬ (E.BUFSIZ ≤ (SDLNet_TCP_Recv c E.BUFSIZ).data.length ∧
      (0 : Byte) ∉ (SDLNet_TCP_Recv c E.BUFSIZ).data) := by
    rintro ⟨ha, hb⟩
    rcases hov with h | h
    · omega
    · exact hb h
  unfold basex_authenticate_request
  simp only
  rw [if_neg hnov]
  repeat' split
  all_goals first
    | exact Or.inl ⟨_, rfl⟩
    | exact Or.inr ⟨_, rfl, by rw [send_inbound, send_inbound]⟩

/-- When `basex_authenticate` returns -1, `open` raises its second network error. -/
theorem open_of_failure (E : Env) (N : Net) (s : BaseXSession) {host port : String}
    {user pass : List Byte} {c c1 : Conn}
    (hconn : basex_connect N (some host) (some port) = some c)
    (h : basex_authenticate E c user pass = .returned (-1) c1) :
    (BaseXSession.open_ E N s host port user pass).1 =
      .threw (.BaseXNetworkError "Access denied, please verify username and password") := by
  unfold BaseXSession.open_
  simp only [hconn, h]
  rw [if_pos trivial]

/-- Counterexample to C9: with the challenge `abc123`, a connection closed before the status
byte and a server answering 0x01 produce the same return value of `basex_authenticate` and
the same exception from `BaseXSession::open`. -/
theorem lost_connection_same_as_rejection :
    basex_authenticate refEnv ⟨[[97, 98, 99, 49, 50, 51, 0]], [], [], false⟩
        [97, 100, 109, 105, 110] [120] =
      .returned (-1) ⟨[], [], [97, 100, 109, 105, 110, 0, 51, 50, 49, 99, 98, 97, 53, 100,
        109, 120, 109, 100, 53, 0], false⟩ ∧
    basex_authenticate refEnv ⟨[[97, 98, 99, 49, 50, 51, 0], [1]], [], [], false⟩
        [97, 100, 109, 105, 110] [120] =
      .returned (-1) ⟨[], [], [97, 100, 109, 105, 110, 0, 51, 50, 49, 99, 98, 97, 53, 100,
        109, 120, 109, 100, 53, 0], false⟩ ∧
    (BaseXSession.open_ refEnv (refNet ⟨[[97, 98, 99, 49, 50, 51, 0]], [], [], false⟩)
        BaseXSession.new "localhost" "1984" [97, 100, 109, 105, 110] [120]).1 =
      (BaseXSession.open_ refEnv (refNet ⟨[[97, 98, 99, 49, 50, 51, 0], [1]], [], [], false⟩)
        BaseXSession.new "localhost" "1984" [97, 100, 109, 105, 110] [120]).1 := by
  decide

/-- C9, amended: a connection lost during the handshake.  For every handshake in which the
stream ends (connection closed or receive fault) after the challenge receive, so that no
status byte arrives, `basex_authenticate` returns -1 and `BaseXSession::open` raises
`BaseXNetworkError("Access denied, please verify username and password")`; this is the same
return value and the same exception as in every run in which the server answers with a
nonzero status byte. -/
theorem basex_authenticate_connection_lost (E : Env) (N : Net) (s : BaseXSession)
    (host port : String) (user passwd : List Byte) (c : Conn)
    (hconn : basex_connect N (some host) (some port) = some c)
    (hov : (SDLNet_TCP_Recv c E.BUFSIZ).data.length < E.BUFSIZ ∨
      (0 : Byte) ∈ (SDLNet_TCP_Recv c E.BUFSIZ).data)
    (hend : Ends (SDLNet_TCP_Recv c E.BUFSIZ).conn.inbound) :
    (∃ c1, basex_authenticate E c user passwd = .returned (-1) c1) ∧
      (BaseXSession.open_ E N s host port user passwd).1 =
        .threw (.BaseXNetworkError "Access denied, please verify username and password") ∧
      ∀ (N2 : Net) (c2 c3 c4 : Conn) (b : Byte),
        basex_connect N2 (some host) (some port) = some c2 →
        basex_authenticate_request E c2 user passwd = .sent c3 →
        SDLNet_TCP_Recv c3 1 = ⟨1, [b], c4⟩ → b ≠ 0 →
        basex_authenticate E c2 user passwd = .returned (-1) c4 ∧
          (BaseXSession.open_ E N2 s host port user passwd).1 =
            (BaseXSession.open_ E N s host port user passwd).1 := by
  have key : ∃ c1, basex_authenticate E c user passwd = .returned (-1) c1 := by
    rcases basex_authenticate_request_cases E c user passwd hov with ⟨c1, h⟩ | ⟨c3, h, hin⟩
    · exact ⟨c1, by unfold basex_authenticate; simp only [h]⟩
    · have hst := basex_status_of_ends E (c := c3) (by rw [hin]; exact hend)
      refine ⟨(basex_status E c3).conn, ?_⟩
      unfold basex_authenticate
      simp only [h]
      rw [if_pos hst]
  obtain ⟨c1, hc1⟩ := key
  have hopen := open_of_failure E N s hconn hc1
  refine ⟨⟨c1, hc1⟩, hopen, ?_⟩
  intro N2 c2 c3 c4 b hconn2 hreq hst hb
  have h2 := basex_authenticate_of_status E hreq hst
  rw [if_neg hb] at h2
  exact ⟨h2, by rw [hopen, open_of_failure E N2 s hconn2 h2]⟩

/-- Witness for C9 as amended: challenge `abc123`, then the connection is closed. -/
theorem basex_authenticate_connection_lost_witness :
    (∃ c1, basex_authenticate refEnv ⟨[[97, 98, 99, 49, 50, 51, 0]], [], [], false⟩
        [97, 100, 109, 105, 110] [120] = .returned (-1) c1) ∧
      (BaseXSession.open_ refEnv (refNet ⟨[[97, 98, 99, 49, 50, 51, 0]], [], [], false⟩)
        BaseXSession.new "localhost" "1984" [97, 100, 109, 105, 110] [120]).1 =
        .threw (.BaseXNetworkError "Access denied, please verify username and password") :=
  have h := basex_authenticate_connection_lost refEnv
    (refNet ⟨[[97, 98, 99, 49, 50, 51, 0]], [], [], false⟩) BaseXSession.new
    "localhost" "1984" [97, 100, 109, 105, 110] [120]
    ⟨[[97, 98, 99, 49, 50, 51, 0]], [], [], false⟩ rfl (by decide) (Or.inl rfl)
  ⟨h.1, h.2.1⟩

/-! ## Session lifecycle: claim C8 -/

/-- Counterexample to C8: `open` on a session that is already open does not fail; with a
server that accepts the handshake it returns normally and the new connection takes the
place of the old one. -/
theorem open_on_open_session :
    BaseXSession.is_open ⟨false, some ⟨[[7]], [], [], false⟩⟩ = true ∧
      BaseXSession.open_ refEnv (refNet ⟨[[97, 98, 99, 49, 50, 51, 0], [0]], [], [], false⟩)
          ⟨false, some ⟨[[7]], [], [], false⟩⟩ "localhost" "1984" [97, 100, 109, 105, 110]
          [97, 100, 109, 105, 110] =
        (.returned (), ⟨false, some ⟨[], [], [97, 100, 109, 105, 110, 0, 51, 50, 49, 99, 98,
          97, 53, 100, 109, 97, 100, 109, 105, 110, 109, 100, 53, 0], false⟩⟩) := by
  decide

/-- C8, amended: the session has no state check.  After `close()` the handle is null,
`is_open()` is false, and `execute()` raises no error of its own: it passes the null handle on
to the C layer.  `open()` does not look at the current state either: whenever the connect and
the handshake succeed it returns normally and installs the new connection, also on a session
that is already open. -/
theorem session_without_state_check (E : Env) (N : Net) (s : BaseXSession) (c cNew c1 : Conn)
    (command : List Byte) (host port : String) (user pass : List Byte) :
    (s.m_socket = some c →
        (BaseXSession.close s).1 = .returned (basex_close c) ∧
        BaseXSession.is_open (BaseXSession.close s).2 = false ∧
        BaseXSession.execute E (BaseXSession.close s).2 command =
          (.null_socket, (BaseXSession.close s).2)) ∧
      (basex_connect N (some host) (some port) = some cNew →
        basex_authenticate E cNew user pass = .returned 0 c1 →
        BaseXSession.open_ E N s host port user pass =
          (.returned (), { s with m_socket := some c1 })) := by
  constructor
  · intro hs
    have hclose : BaseXSession.close s = (.returned (basex_close c), { s with m_socket := none }) := by
      unfold BaseXSession.close
      simp only [hs]
    rw [hclose]
    exact ⟨rfl, rfl, rfl⟩
  · intro hconn hauth
    unfold BaseXSession.open_
    simp only [hconn, hauth]
    rw [if_neg (by decide)]

/-- Witness for C8 as amended: an open session is closed and then asked to execute; and
`open` is called on an open session. -/
theorem session_without_state_check_witness :
    BaseXSession.execute refEnv (BaseXSession.close ⟨false, some ⟨[[7]], [], [], false⟩⟩).2
        [120] = (.null_socket, ⟨false, none⟩) ∧
      BaseXSession.open_ refEnv (refNet ⟨[[97, 98, 99, 49, 50, 51, 0], [0]], [], [], false⟩)
          ⟨false, some ⟨[[7]], [], [], false⟩⟩ "localhost" "1984" [97, 100, 109, 105, 110]
          [97, 100, 109, 105, 110] =
        (.returned (), ⟨false, some ⟨[], [], [97, 100, 109, 105, 110, 0, 51, 50, 49, 99, 98,
          97, 53, 100, 109, 97, 100, 109, 105, 110, 109, 100, 53, 0], false⟩⟩) :=
  have h := session_without_state_check refEnv
    (refNet ⟨[[97, 98, 99, 49, 50, 51, 0], [0]], [], [], false⟩)
    ⟨false, some ⟨[[7]], [], [], false⟩⟩ ⟨[[7]], [], [], false⟩
    ⟨[[97, 98, 99, 49, 50, 51, 0], [0]], [], [], false⟩
    ⟨[], [], [97, 100, 109, 105, 110, 0, 51, 50, 49, 99, 98,
      97, 53, 100, 109, 97, 100, 109, 105, 110, 109, 100, 53, 0], false⟩
    [120] "localhost" "1984" [97, 100, 109, 105, 110] [97, 100, 109, 105, 110]
  ⟨(h.1 rfl).2.2, h.2 rfl (by decide)⟩

/-! ## The delimited-string reader: claims C11 and C15 -/

/-- A string handed back by the loop ends with the terminator that stopped the loop. -/
theorem readstring_loop_terminated (E : Env) :
    ∀ (fuel : Nat) (c : Conn) (str : List Byte) (size : Nat) (r : ReadResult) (st : List Byte),
      readstring_loop E fuel c str size = some r → r.str = some st →
      ∃ body, st = body ++ [0] := by
  intro fuel
  induction fuel with
  | zero => intro c str size r st h; simp [readstring_loop] at h
  | succ f ih =>
    intro c str size r st h hst
    unfold readstring_loop at h
    cases hg : grow E str.length size with
    | none =>
      simp only [hg, Option.some.injEq] at h
      subst h
      simp at hst
    | some size1 =>
      simp only [hg] at h
      by_cases hrc : (SDLNet_TCP_Recv c 1).rc ≤ 0
      · rw [if_pos hrc] at h
        simp only [Option.some.injEq] at h
        subst h
        simp at hst
      · rw [if_neg hrc] at h
        by_cases hb : (SDLNet_TCP_Recv c 1).data.headD 0 = 0
        · rw [if_pos hb] at h
          simp only [Option.some.injEq] at h
          subst h
          simp only [Option.some.injEq] at hst
          exact ⟨str, by rw [← hst, hb]⟩
        · rw [if_neg hb] at h
          exact ih _ _ _ r st h hst

/-- C11: a failing read.  For every build and every stream, if the transport delivers bytes
without NUL and then a single-byte read returns zero bytes or an error, `readstring` returns
-1 and sets `*str` to `NULL`.  No partial string is ever returned: whenever `*str` is not
`NULL` the stored bytes end with the terminator that was read. -/
theorem readstring_read_failure (E : Env) (c : Conn) :
    (∀ (s : List Byte) (post : List (List Byte)), (0 : Byte) ∉ s →
        Delivers c.inbound s post → Ends post →
        (readstring E c).rc = -1 ∧ (readstring E c).str = none) ∧
      (∀ st, (readstring E c).str = some st → ∃ body, st = body ++ [0]) := by
  constructor
  · intro s post h0 hd hp
    exact readstring_ends E h0 hd hp
  · intro st hst
    exact readstring_loop_terminated E _ c [] 32 _ st (readstring_eq_of_loop E c) hst

/-- Witness for C11: two bytes, then a receive fault; the terminator would have come later. -/
theorem readstring_read_failure_witness :
    Ends ([[], [3, 0]] : List (List Byte)) ∧
      (readstring refEnv ⟨[[1, 2], [], [3, 0]], [], [], false⟩).rc = -1 ∧
      (readstring refEnv ⟨[[1, 2], [], [3, 0]], [], [], false⟩).str = none :=
  ⟨Or.inr ⟨_, rfl⟩,
   (readstring_read_failure refEnv ⟨[[1, 2], [], [3, 0]], [], [], false⟩).1 [1, 2] [[], [3, 0]]
      (by decide) ⟨[[1, 2]], by decide, by decide, by decide⟩ (Or.inr ⟨_, rfl⟩)⟩

/-- C15: what a successful read consumes.  For every stream `s NUL rest` (`s` without NUL and
at most 8388606 bytes long, any chunking), `readstring` returns `length s + 1`, which is the
number of bytes it took from the connection and is never 0; the connection is left at `rest`
and is otherwise unchanged.  Two consecutive reads on `s1 NUL s2 NUL rest` therefore return
`s1` and then `s2`. -/
theorem readstring_consumes (E : Env) (hS : 16777216 ≤ E.SIZE_MAX)
    (hR : ∀ n, E.realloc_ok n = true) (c : Conn) (post : List (List Byte)) :
    (∀ (s rest : List Byte), (0 : Byte) ∉ s → s.length ≤ 8388606 →
        Delivers c.inbound (s ++ 0 :: rest) post →
        (readstring E c).rc = ((s.length + 1 : Nat) : Int) ∧ 0 < (readstring E c).rc ∧
          Delivers (readstring E c).conn.inbound rest post ∧
          (readstring E c).conn.sendRets = c.sendRets ∧
          (readstring E c).conn.outbound = c.outbound ∧
          (readstring E c).conn.closed = c.closed) ∧
      (∀ (s1 s2 rest : List Byte), (0 : Byte) ∉ s1 → (0 : Byte) ∉ s2 →
        s1.length ≤ 8388606 → s2.length ≤ 8388606 →
        Delivers c.inbound (s1 ++ 0 :: (s2 ++ 0 :: rest)) post →
        (readstring E c).str = some (s1 ++ [0]) ∧
          (readstring E (readstring E c).conn).str = some (s2 ++ [0]) ∧
          Delivers (readstring E (readstring E c).conn).conn.inbound rest post) := by
  constructor
  · intro s rest h0 hlen hd
    obtain ⟨inb, hdi, h⟩ := readstring_of_delivers E hS hR h0 hlen hd
    rw [h]
    exact ⟨rfl, by simp only; omega, hdi, rfl, rfl, rfl⟩
  · intro s1 s2 rest h1 h2 hl1 hl2 hd
    obtain ⟨inb, hdi, h⟩ := readstring_of_delivers E hS hR h1 hl1 hd
    obtain ⟨inb2, hdi2, h'⟩ :=
      readstring_of_delivers E hS hR (c := { c with inbound := inb }) h2 hl2 hdi
    rw [h]
    simp only
    rw [h']
    exact ⟨trivial, rfl, hdi2⟩

/-- Witness for C15: the stream `a b NUL c NUL d` delivered in chunks of three bytes. -/
theorem readstring_consumes_witness :
    (readstring refEnv ⟨[[97, 98, 0], [99, 0, 100]], [], [], false⟩).str = some ([97, 98] ++ [0]) ∧
      (readstring refEnv
        (readstring refEnv ⟨[[97, 98, 0], [99, 0, 100]], [], [], false⟩).conn).str =
        some ([99] ++ [0]) ∧
      Delivers (readstring refEnv
        (readstring refEnv ⟨[[97, 98, 0], [99, 0, 100]], [], [], false⟩).conn).conn.inbound
        [100] [] :=
  (readstring_consumes refEnv (by decide) (fun _ => rfl)
    ⟨[[97, 98, 0], [99, 0, 100]], [], [], false⟩ []).2 [97, 98] [99] [100] (by decide)
    (by decide) (by decide) (by decide)
    ⟨[[97, 98, 0], [99, 0, 100]], by decide, by decide, by decide⟩

/-! ## Closing and reusing a session: claims C12, C13 and C14 -/

theorem send_outbound (c : Conn) (buf : List Byte) :
    (SDLNet_TCP_Send c buf).conn.outbound =
        c.outbound ++ buf.take (SDLNet_TCP_Send c buf).rc.toNat ∧
      (SDLNet_TCP_Send c buf).rc ≤ buf.length := by
  unfold SDLNet_TCP_Send
  cases c.sendRets with
  | nil => simp
  | cons r rs =>
    simp only
    exact ⟨trivial, by omega⟩

/-- What `send_db` puts on the wire is a leading part of the buffer. -/
theorem send_db_loop_outbound :
    ∀ (fuel : Nat) (c : Conn) (buf : List Byte),
      ∃ k, k ≤ buf.length ∧ (send_db_loop fuel c buf).conn.outbound = c.outbound ++ buf.take k := by
  intro fuel
  induction fuel with
  | zero => intro c buf; exact ⟨0, by omega, by simp [send_db_loop]⟩
  | succ f ih =>
    intro c buf
    obtain ⟨hout, hle⟩ := send_outbound c buf
    unfold send_db_loop
    by_cases h0 : buf.length = 0
    · rw [if_pos h0]
      exact ⟨0, by omega, by simp⟩
    · rw [if_neg h0]
      simp only
      by_cases h1 : (SDLNet_TCP_Send c buf).rc = 0
      · rw [if_pos h1]
        exact ⟨0, by omega, by rw [hout, h1]; simp⟩
      · rw [if_neg h1]
        by_cases h2 : (SDLNet_TCP_Send c buf).rc < 0
        · rw [if_pos h2]
          refine ⟨0, by omega, ?_⟩
          rw [hout, Int.toNat_of_nonpos (le_of_lt h2)]
        · rw [if_neg h2]
          obtain ⟨k, hk, hko⟩ := ih (SDLNet_TCP_Send c buf).conn
            (buf.drop (SDLNet_TCP_Send c buf).rc.toNat)
          have hn : ((SDLNet_TCP_Send c buf).rc.toNat : Int) = (SDLNet_TCP_Send c buf).rc :=
            Int.toNat_of_nonneg (by omega)
          refine ⟨(SDLNet_TCP_Send c buf).rc.toNat + k, ?_, ?_⟩
          · rw [List.length_drop] at hk
            omega
          · rw [hko, hout, List.append_assoc, List.take_add]

/-- On a transport that accepts what it is given, `send_db` writes the whole buffer. -/
theorem send_db_healthy (c : Conn) (buf : List Byte) (h : c.sendRets = []) :
    send_db c buf = ⟨0, { c with outbound := c.outbound ++ buf }⟩ := by
  unfold send_db
  cases hb : buf with
  | nil =>
    simp only [List.length_nil, send_db_loop, List.append_nil]
  | cons x xs =>
    simp only [List.length_cons]
    unfold send_db_loop
    rw [if_neg (by simp)]
    simp only [send_healthy (x :: xs) h]
    rw [if_neg (by simp only [List.length_cons]; omega),
      if_neg (by simp only [List.length_cons]; omega)]
    have hd : (x :: xs).drop ((((x :: xs).length : Nat) : Int)).toNat = [] := by
      rw [Int.toNat_natCast]
      exact List.drop_length _
    rw [hd]
    cases xs.length with
    | zero => rfl
    | succ n => rfl

theorem send_sendRets_nonneg_loop :
    ∀ (fuel : Nat) (c : Conn) (buf : List Byte),
      (∀ r ∈ c.sendRets, 0 ≤ r) → ∀ r ∈ (send_db_loop fuel c buf).conn.sendRets, 0 ≤ r := by
  intro fuel
  induction fuel with
  | zero => intro c buf h; exact h
  | succ f ih =>
    intro c buf h
    obtain ⟨-, hrest⟩ := send_rc_nonneg buf h
    unfold send_db_loop
    by_cases h0 : buf.length = 0
    · rw [if_pos h0]
      exact h
    · rw [if_neg h0]
      simp only
      by_cases h1 : (SDLNet_TCP_Send c buf).rc = 0
      · rw [if_pos h1]
        exact hrest
      · rw [if_neg h1]
        by_cases h2 : (SDLNet_TCP_Send c buf).rc < 0
        · rw [if_pos h2]
          exact hrest
        · rw [if_neg h2]
          exact ih _ _ hrest

theorem send_db_loop_nil (fuel : Nat) (c : Conn) : send_db_loop fuel c [] = ⟨0, c⟩ := by
  cases fuel with
  | zero => rfl
  | succ f => rfl

theorem send_of_script {c : Conn} {x : Int} {rs : List Int} (buf : List Byte)
    (hs : c.sendRets = x :: rs) :
    (SDLNet_TCP_Send c buf).rc = min x buf.length ∧
      (SDLNet_TCP_Send c buf).conn.sendRets = rs := by
  unfold SDLNet_TCP_Send
  rw [hs]
  exact ⟨rfl, rfl⟩

/-- As long as every send call accepts at least one byte, until the script of the transport
is exhausted or the buffer is finished, `send_db` returns 0 with the whole buffer written. -/
theorem send_db_loop_all (tl : List Int) :
    ∀ (pre : List Int) (fuel : Nat) (c : Conn) (buf : List Byte),
      c.sendRets = pre ++ tl → (∀ x ∈ pre, 0 < x) →
      (tl = [] ∨ (buf.length : Int) ≤ pre.sum) → buf.length ≤ fuel →
      (send_db_loop fuel c buf).rc = 0 ∧
        (send_db_loop fuel c buf).conn.outbound = c.outbound ++ buf := by
  intro pre
  induction pre with
  | nil =>
    intro fuel c buf hs _ hsum hf
    cases hb : buf with
    | nil => rw [send_db_loop_nil]; exact ⟨rfl, by simp⟩
    | cons y ys =>
      have htl : tl = [] := by
        rcases hsum with h | h
        · exact h
        · rw [hb] at h
          simp only [List.length_cons, List.sum_nil] at h
          omega
      have hsr : c.sendRets = [] := by rw [hs, htl]; rfl
      obtain ⟨f, rfl⟩ : ∃ f, fuel = f + 1 :=
        ⟨fuel - 1, by rw [hb, List.length_cons] at hf; omega⟩
      unfold send_db_loop
      rw [if_neg (by simp)]
      simp only [send_healthy (y :: ys) hsr]
      rw [if_neg (by simp only [List.length_cons]; omega),
        if_neg (by simp only [List.length_cons]; omega)]
      have hd : (y :: ys).drop ((((y :: ys).length : Nat) : Int)).toNat = [] := by
        rw [Int.toNat_natCast]
        exact List.drop_length _
      rw [hd, send_db_loop_nil]
      exact ⟨rfl, rfl⟩
  | cons x pre ih =>
    intro fuel c buf hs hpos hsum hf
    have hx : 0 < x := hpos x (by simp)
    have hpos' : ∀ y ∈ pre, 0 < y := fun y hy => hpos y (by simp [hy])
    have hsum' : 0 ≤ pre.sum := List.sum_nonneg (fun y hy => le_of_lt (hpos' y hy))
    simp only [List.sum_cons] at hsum
    by_cases h0 : buf.length = 0
    · have hnil : buf = [] := List.length_eq_zero.mp h0
      rw [hnil, send_db_loop_nil]
      exact ⟨rfl, by simp⟩
    · obtain ⟨f, rfl⟩ : ∃ f, fuel = f + 1 := ⟨fuel - 1, by omega⟩
      obtain ⟨hrc, hrs⟩ := send_of_script (c := c) buf (by simpa using hs)
      obtain ⟨hout, -⟩ := send_outbound c buf
      have hpos_rc : 0 < (SDLNet_TCP_Send c buf).rc := by rw [hrc]; omega
      have hn : ((SDLNet_TCP_Send c buf).rc.toNat : Int) = (SDLNet_TCP_Send c buf).rc :=
        Int.toNat_of_nonneg (le_of_lt hpos_rc)
      unfold send_db_loop
      rw [if_neg h0]
      simp only
      rw [if_neg (by omega), if_neg (by omega)]
      obtain ⟨h1, h2⟩ := ih f (SDLNet_TCP_Send c buf).conn
        (buf.drop (SDLNet_TCP_Send c buf).rc.toNat) hrs hpos'
        (by
          rcases hsum with h | h
          · exact Or.inl h
          · right
            rw [List.length_drop]
            omega)
        (by rw [List.length_drop]; omega)
      refine ⟨h1, ?_⟩
      rw [h2, hout, List.append_assoc, List.take_append_drop]

/-- C12: closing a session.  For every open session, `close()` sends exactly the five bytes
`e x i t NUL` whenever the transport accepts them, in one piece or in several (every send
call taking at least one byte until the frame is out or the script of the transport is
exhausted); on any transport what reaches the wire is a leading part of that frame and
nothing else.  No byte is read from the connection, the socket is closed whether or not
the send succeeded, and afterwards the handle is null and `is_open()` is false. -/
theorem close_sends_exit (s : BaseXSession) (c : Conn) (hs : s.m_socket = some c) :
    ∃ cl, BaseXSession.close s = (.returned cl, { s with m_socket := none }) ∧
      cl.closed = true ∧ cl.inbound = c.inbound ∧
      (∃ k, k ≤ 5 ∧ cl.outbound = c.outbound ++ ([101, 120, 105, 116, 0] : List Byte).take k) ∧
      (∀ pre tl, c.sendRets = pre ++ tl → (∀ x ∈ pre, 0 < x) → (tl = [] ∨ 5 ≤ pre.sum) →
        cl.outbound = c.outbound ++ [101, 120, 105, 116, 0]) ∧
      BaseXSession.is_open (BaseXSession.close s).2 = false := by
  have hclose : BaseXSession.close s = (.returned (basex_close c), { s with m_socket := none }) := by
    unfold BaseXSession.close
    simp only [hs]
  refine ⟨basex_close c, hclose, rfl, ?_, ?_, ?_, ?_⟩
  · exact send_db_inbound c _
  · obtain ⟨k, hk, hko⟩ := send_db_loop_outbound 5 c [101, 120, 105, 116, 0]
    exact ⟨k, hk, hko⟩
  · intro pre tl hscript hpos hsum
    exact (send_db_loop_all tl pre 5 c [101, 120, 105, 116, 0] hscript hpos
      (by simpa using hsum) (le_refl _)).2
  · rw [hclose]
    rfl

/-- Witness for C12: an open session whose transport takes the frame in two pieces (two
bytes, then the rest): all five bytes go out after what was sent before, nothing is read,
the socket is closed and the session is no longer open. -/
theorem close_sends_exit_witness :
    ∃ cl, BaseXSession.close ⟨false, some ⟨[[7]], [2], [1], false⟩⟩ =
        (.returned cl, ⟨false, none⟩) ∧
      cl.closed = true ∧ cl.inbound = [[7]] ∧
      cl.outbound = [1] ++ [101, 120, 105, 116, 0] ∧
      BaseXSession.is_open (BaseXSession.close ⟨false, some ⟨[[7]], [2], [1], false⟩⟩).2 =
        false :=
  match close_sends_exit ⟨false, some ⟨[[7]], [2], [1], false⟩⟩ ⟨[[7]], [2], [1], false⟩ rfl with
  | ⟨cl, h1, h2, h3, _, h5, h6⟩ =>
    ⟨cl, h1, h2, h3, h5 [2] [] rfl (by decide) (Or.inl rfl), h6⟩

/-- C13: a command error leaves the session usable.  For every stream holding two replies, the
first ending with status 0x01 and the second with status 0x00, the first `execute` raises
`BaseXCommandError` with the first info, takes the stream exactly through that status byte
and keeps the same connection in an open session; the second `execute` then returns the
result of the second reply. -/
theorem execute_after_command_error (E : Env) (hS : 16777216 ≤ E.SIZE_MAX)
    (hR : ∀ n, E.realloc_ok n = true) (c : Conn) (m : Bool)
    (cmd1 cmd2 r1 i1 r2 i2 rest : List Byte) (post : List (List Byte))
    (hsend : ∀ r ∈ c.sendRets, 0 ≤ r)
    (hr1 : (0 : Byte) ∉ r1) (hi1 : (0 : Byte) ∉ i1) (hr2 : (0 : Byte) ∉ r2)
    (hi2 : (0 : Byte) ∉ i2) (hl1 : r1.length ≤ 8388606) (hl2 : i1.length ≤ 8388606)
    (hl3 : r2.length ≤ 8388606) (hl4 : i2.length ≤ 8388606)
    (hd : Delivers c.inbound
      (r1 ++ 0 :: (i1 ++ 0 :: 1 :: (r2 ++ 0 :: (i2 ++ 0 :: 0 :: rest)))) post) :
    ∃ inb, Delivers inb (r2 ++ 0 :: (i2 ++ 0 :: 0 :: rest)) post ∧
      BaseXSession.execute E ⟨m, some c⟩ cmd1 =
        (.threw (.BaseXCommandError i1),
          ⟨m, some { (send_db c (cstr cmd1 ++ [0])).conn with inbound := inb }⟩) ∧
      BaseXSession.is_open (BaseXSession.execute E ⟨m, some c⟩ cmd1).2 = true ∧
      (BaseXSession.execute E (BaseXSession.execute E ⟨m, some c⟩ cmd1).2 cmd2).1 =
        .returned r2 := by
  obtain ⟨inb, hdi, h⟩ := basex_execute_reply E hS hR cmd1 1 hsend hr1 hi1 hl1 hl2 hd
  rw [charToInt_one] at h
  rw [if_neg (by decide), if_pos (Or.inr rfl), if_pos rfl] at h
  have hfirst : BaseXSession.execute E ⟨m, some c⟩ cmd1 =
      (.threw (.BaseXCommandError i1),
        ⟨m, some { (send_db c (cstr cmd1 ++ [0])).conn with inbound := inb }⟩) := by
    unfold BaseXSession.execute
    simp only [h]
    rw [if_neg (by decide), if_pos (by decide)]
    simp only [cstr_append_nul i1 [] hi1]
  have hsend2 : ∀ r ∈ ({ (send_db c (cstr cmd1 ++ [0])).conn with
      inbound := inb } : Conn).sendRets, 0 ≤ r :=
    send_sendRets_nonneg_loop _ c _ hsend
  obtain ⟨inb2, -, h2⟩ :=
    basex_execute_reply E hS hR (c := { (send_db c (cstr cmd1 ++ [0])).conn with inbound := inb })
      cmd2 0 hsend2 hr2 hi2 hl3 hl4 hdi
  rw [charToInt_zero] at h2
  rw [if_neg (by decide), if_pos (Or.inl rfl), if_neg (by decide)] at h2
  refine ⟨inb, hdi, hfirst, by rw [hfirst]; rfl, ?_⟩
  rw [hfirst]
  unfold BaseXSession.execute
  simp only [h2]
  rw [if_neg (by decide), if_neg (by decide)]
  simp only [cstr_append_nul r2 [] hr2]

/-- Witness for C13: the replies `NUL e NUL 0x01` and `r NUL i NUL 0x00`. -/
theorem execute_after_command_error_witness :
    ∃ inb, Delivers inb ([114] ++ 0 :: ([105] ++ 0 :: 0 :: [])) [] ∧
      BaseXSession.execute refEnv ⟨false, some ⟨[[0, 101, 0, 1], [114, 0, 105, 0, 0]], [], [],
          false⟩⟩ [120] =
        (.threw (.BaseXCommandError [101]),
          ⟨false, some { (send_db ⟨[[0, 101, 0, 1], [114, 0, 105, 0, 0]], [], [], false⟩
            (cstr [120] ++ [0])).conn with inbound := inb }⟩) ∧
      BaseXSession.is_open (BaseXSession.execute refEnv ⟨false, some ⟨[[0, 101, 0, 1],
        [114, 0, 105, 0, 0]], [], [], false⟩⟩ [120]).2 = true ∧
      (BaseXSession.execute refEnv (BaseXSession.execute refEnv ⟨false, some ⟨[[0, 101, 0, 1],
        [114, 0, 105, 0, 0]], [], [], false⟩⟩ [120]).2 [121]).1 = .returned [114] :=
  execute_after_command_error refEnv (by decide) (fun _ => rfl)
    ⟨[[0, 101, 0, 1], [114, 0, 105, 0, 0]], [], [], false⟩ false [120] [121] [] [101] [114]
    [105] [] [] (by decide) (by decide) (by decide) (by decide) (by decide) (by decide)
    (by decide) (by decide) (by decide)
    ⟨[[0, 101, 0, 1], [114, 0, 105, 0, 0]], by decide, by decide, by decide⟩

/-- Counterexample to C14: the server rejects the handshake with status 0x01; `open` raises,
and `is_open()` is true afterwards. -/
theorem is_open_after_rejected_handshake :
    (BaseXSession.open_ refEnv (refNet ⟨[[97, 98, 99, 49, 50, 51, 0], [1]], [], [], false⟩)
        BaseXSession.new "localhost" "1984" [97, 100, 109, 105, 110] [120]).1 =
      .threw (.BaseXNetworkError "Access denied, please verify username and password") ∧
    BaseXSession.is_open
      (BaseXSession.open_ refEnv (refNet ⟨[[97, 98, 99, 49, 50, 51, 0], [1]], [], [], false⟩)
        BaseXSession.new "localhost" "1984" [97, 100, 109, 105, 110] [120]).2 = true := by
  decide

/-- C14, amended: `is_open()` tells whether the session holds a connection handle, not
whether it has authenticated.  After `open()` it is true exactly when the connect step
succeeded, whatever the handshake did; `execute()` leaves it as it was; after `close()` it is
false.  In particular, when `open()` fails at the authentication step it raises and
`is_open()` is true. -/
theorem is_open_iff_handle (E : Env) (N : Net) (s : BaseXSession) (host port : String)
    (user pass command : List Byte) :
    BaseXSession.is_open (BaseXSession.open_ E N s host port user pass).2 =
        (basex_connect N (some host) (some port)).isSome ∧
      BaseXSession.is_open (BaseXSession.execute E s command).2 = BaseXSession.is_open s ∧
      BaseXSession.is_open (BaseXSession.close s).2 = false ∧
      (∀ c c1, basex_connect N (some host) (some port) = some c →
        basex_authenticate E c user pass = .returned (-1) c1 →
        (BaseXSession.open_ E N s host port user pass).1 =
            .threw (.BaseXNetworkError "Access denied, please verify username and password") ∧
          BaseXSession.is_open (BaseXSession.open_ E N s host port user pass).2 = true) := by
  refine ⟨?_, ?_, ?_, ?_⟩
  · unfold BaseXSession.open_
    cases hconn : basex_connect N (some host) (some port) with
    | none => rfl
    | some c =>
      simp only
      cases hauth : basex_authenticate E c user pass with
      | overrun c1 => rfl
      | returned rc c1 =>
        simp only
        split <;> rfl
  · unfold BaseXSession.execute
    cases hs : s.m_socket with
    | none => simp [BaseXSession.is_open, hs]
    | some c =>
      have hso : BaseXSession.is_open s = true := by simp [BaseXSession.is_open, hs]
      rw [hso]
      simp only
      cases hx : basex_execute E c command with
      | assert_failed c1 => rfl
      | returned res result info c1 =>
        simp only
        repeat' split
        all_goals rfl
  · unfold BaseXSession.close
    cases hs : s.m_socket with
    | none => simp [BaseXSession.is_open, hs]
    | some c => rfl
  · intro c c1 hconn hauth
    refine ⟨open_of_failure E N s hconn hauth, ?_⟩
    unfold BaseXSession.open_
    simp only [hconn, hauth]
    rw [if_pos trivial]
    rfl

/-- Witness for C14 as amended: the rejected handshake on token `abc123`. -/
theorem is_open_iff_handle_witness :
    (BaseXSession.open_ refEnv (refNet ⟨[[97, 98, 99, 49, 50, 51, 0], [1]], [], [], false⟩)
        BaseXSession.new "localhost" "1984" [97, 100, 109, 105, 110] [120]).1 =
      .threw (.BaseXNetworkError "Access denied, please verify username and password") ∧
    BaseXSession.is_open
      (BaseXSession.open_ refEnv (refNet ⟨[[97, 98, 99, 49, 50, 51, 0], [1]], [], [], false⟩)
        BaseXSession.new "localhost" "1984" [97, 100, 109, 105, 110] [120]).2 = true :=
  (is_open_iff_handle refEnv (refNet ⟨[[97, 98, 99, 49, 50, 51, 0], [1]], [], [], false⟩)
    BaseXSession.new "localhost" "1984" [97, 100, 109, 105, 110] [120] []).2.2.2
    ⟨[[97, 98, 99, 49, 50, 51, 0], [1]], [], [], false⟩
    ⟨[], [], [97, 100, 109, 105, 110, 0, 51, 50, 49, 99, 98, 97, 53, 100,
      109, 120, 109, 100, 53, 0], false⟩ rfl (by decide)

/-! ## The buffer of `readstring`: claims C16 and C19 -/

/-- The two ways through the reallocation block that let the loop go on. -/
theorem grow_cases (E : Env) {chars size size1 : Nat} (hpos : 0 < size)
    (hg : grow E chars size = some size1) :
    (size1 = size ∧ chars < size - 1) ∨
      (size1 = size * 2 ∧ ¬ chars < size - 1 ∧ size * 2 < READSTRING_MAX) := by
  unfold grow at hg
  by_cases hlt : chars < size - 1
  · simp only [hlt, not_true_eq_false, if_false, Option.some.injEq] at hg
    exact Or.inl ⟨hg.symm, hlt⟩
  · simp only [hlt, not_false_eq_true, if_true] at hg
    by_cases hov : size ≠ 0 ∧ 2 > E.SIZE_MAX / size
    · simp [hov] at hg
    · simp only [hov, if_false] at hg
      have hdiv : 2 ≤ E.SIZE_MAX / size := by
        by_contra hc
        exact hov ⟨by omega, Nat.lt_of_not_le hc⟩
      rw [Nat.le_div_iff_mul_le hpos] at hdiv
      have hmod : (size * 2) % (E.SIZE_MAX + 1) = size * 2 := Nat.mod_eq_of_lt (by omega)
      rw [hmod] at hg
      by_cases hmx : size * 2 < READSTRING_MAX
      · simp only [hmx, if_true] at hg
        by_cases hr : E.realloc_ok (size * 2) = true
        · simp only [hr, if_true, Option.some.injEq] at hg
          exact Or.inr ⟨hg.symm, hlt, hmx⟩
        · simp [hr] at hg
      · simp [hmx] at hg

/-- The capacity stays a power-of-two multiple of 32 through the reallocation block. -/
theorem grow_pow (E : Env) {chars size size1 : Nat} (hp : ∃ k, size = 32 * 2 ^ k)
    (hg : grow E chars size = some size1) : ∃ k, size1 = 32 * 2 ^ k := by
  obtain ⟨k, hk⟩ := hp
  rcases grow_cases E (by have := capacity_ge hk; omega) hg with ⟨h, -⟩ | ⟨h, -, -⟩
  · exact ⟨k, by rw [h, hk]⟩
  · exact ⟨k + 1, by rw [h, hk, pow_succ]; ring⟩

/-- A capacity below the maximum is at most 8388608. -/
theorem capacity_le {k size : Nat} (hk : size = 32 * 2 ^ k) (h : size < READSTRING_MAX) :
    size ≤ 8388608 := by
  have hmax : READSTRING_MAX = 10485760 := by norm_num [READSTRING_MAX]
  have hk18 : k ≤ 18 := by
    by_contra hc
    have h19 : 19 ≤ k := by omega
    have hp : 2 ^ 19 ≤ 2 ^ k := Nat.pow_le_pow_right (by norm_num) h19
    norm_num at hp
    omega
  have hp : 2 ^ k ≤ 2 ^ 18 := Nat.pow_le_pow_right (by norm_num) hk18
  norm_num at hp
  omega

/-- The invariant of the loop, for every iteration recorded from a state that satisfies it. -/
theorem readstring_iterations_inv (E : Env) :
    ∀ (fuel : Nat) (c : Conn) (str : List Byte) (size : Nat),
      (∃ k, size = 32 * 2 ^ k) → size < READSTRING_MAX → str.length ≤ size - 1 →
      ∀ p ∈ readstring_iterations E fuel c str size,
        (∃ k, p.2 = 32 * 2 ^ k) ∧ p.2 < READSTRING_MAX ∧ p.1 ≤ p.2 - 1 := by
  intro fuel
  induction fuel with
  | zero => intro c str size _ _ _ p hp; simp [readstring_iterations] at hp
  | succ f ih =>
    intro c str size hpow hm hc p hp
    unfold readstring_iterations at hp
    rcases List.mem_cons.mp hp with rfl | hp
    · exact ⟨hpow, hm, hc⟩
    · cases hg : grow E str.length size with
      | none => simp [hg] at hp
      | some size1 =>
        obtain ⟨k, hk⟩ := hpow
        obtain ⟨-, hm', hlt⟩ := grow_inv E (capacity_ge hk) hm hc hg
        have hpow' := grow_pow E ⟨k, hk⟩ hg
        simp only [hg] at hp
        by_cases hrc : (SDLNet_TCP_Recv c 1).rc ≤ 0
        · rw [if_pos hrc] at hp
          simp at hp
        · rw [if_neg hrc] at hp
          by_cases hb : (SDLNet_TCP_Recv c 1).data.headD 0 = 0
          · rw [if_pos hb] at hp
            simp at hp
          · rw [if_neg hb] at hp
            exact ih _ _ _ hpow' hm'
              (by simp only [List.length_append, List.length_cons, List.length_nil]; omega) p hp

/-- On a successful run the loop went through as many iterations as it stored bytes. -/
theorem readstring_iterations_length (E : Env) :
    ∀ (fuel : Nat) (c : Conn) (str : List Byte) (size : Nat) (r : ReadResult),
      readstring_loop E fuel c str size = some r → r.rc ≠ -1 →
      r.rc = ((str.length + (readstring_iterations E fuel c str size).length : Nat) : Int) := by
  intro fuel
  induction fuel with
  | zero => intro c str size r h; simp [readstring_loop] at h
  | succ f ih =>
    intro c str size r h hr
    unfold readstring_loop at h
    unfold readstring_iterations
    cases hg : grow E str.length size with
    | none =>
      simp only [hg, Option.some.injEq] at h
      subst h
      exact absurd rfl hr
    | some size1 =>
      simp only [hg] at h ⊢
      by_cases hrc : (SDLNet_TCP_Recv c 1).rc ≤ 0
      · rw [if_pos hrc] at h
        simp only [Option.some.injEq] at h
        subst h
        exact absurd rfl hr
      · rw [if_neg hrc] at h
        rw [if_neg hrc]
        by_cases hb : (SDLNet_TCP_Recv c 1).data.headD 0 = 0
        · rw [if_pos hb] at h
          rw [if_pos hb]
          simp only [Option.some.injEq] at h
          subst h
          simp
        · rw [if_neg hb] at h
          rw [if_neg hb]
          have := ih _ _ _ r h hr
          rw [this]
          simp only [List.length_append, List.length_cons, List.length_nil]
          push_cast
          omega

/-- C16: the buffer invariant of `readstring`.  For every build and every input stream, at
every iteration of the read loop the capacity is `32 * 2 ^ k` for some `k`, it is below
10 MiB, and the number of stored bytes is at most the capacity minus one; whenever the
reallocation block lets the iteration go on to the store, the capacity it leaves is again
`32 * 2 ^ k` and below 10 MiB, the write index is strictly below it, and after the store
the number of stored bytes is at most that capacity minus one.  On a successful run the
iterations recorded are exactly the stores made. -/
theorem readstring_buffer_invariant (E : Env) (c : Conn) (fuel : Nat) :
    (∀ p ∈ readstring_iterations E fuel c [] 32,
        (∃ k, p.2 = 32 * 2 ^ k) ∧ p.2 ≤ 10485760 ∧ p.1 ≤ p.2 - 1 ∧
          ∀ size1, grow E p.1 p.2 = some size1 →
            (∃ k, size1 = 32 * 2 ^ k) ∧ size1 ≤ 10485760 ∧ p.1 < size1 ∧
              p.1 + 1 ≤ size1 - 1) ∧
      (∀ r, readstring_loop E fuel c [] 32 = some r → r.rc ≠ -1 →
        r.rc = (((readstring_iterations E fuel c [] 32).length : Nat) : Int)) := by
  have hmax : READSTRING_MAX = 10485760 := by norm_num [READSTRING_MAX]
  constructor
  · intro p hp
    obtain ⟨hpow, hm, hc⟩ :=
      readstring_iterations_inv E fuel c [] 32 ⟨0, by norm_num⟩ (by omega) (by simp) p hp
    refine ⟨hpow, by omega, hc, ?_⟩
    intro size1 hg
    obtain ⟨k, hk⟩ := hpow
    obtain ⟨-, hm', hlt⟩ := grow_inv E (capacity_ge hk) hm hc hg
    exact ⟨grow_pow E ⟨k, hk⟩ hg, by omega, by omega, by omega⟩
  · intro r h hr
    have := readstring_iterations_length E fuel c [] 32 r h hr
    simpa using this

/-- Witness for C16: on a stream of 40 bytes the iteration that finds 31 stored bytes in a
buffer of capacity 32 doubles the capacity to 64 before it stores. -/
theorem readstring_buffer_invariant_witness :
    ((31, 32) : Nat × Nat) ∈
        readstring_iterations refEnv 41 ⟨[List.replicate 40 65], [], [], false⟩ [] 32 ∧
      grow refEnv 31 32 = some 64 ∧
      ((∃ k, (32 : Nat) = 32 * 2 ^ k) ∧ (32 : Nat) ≤ 10485760 ∧ (31 : Nat) ≤ 32 - 1 ∧
        ∀ size1, grow refEnv 31 32 = some size1 →
          (∃ k, size1 = 32 * 2 ^ k) ∧ size1 ≤ 10485760 ∧ 31 < size1 ∧ 31 + 1 ≤ size1 - 1) :=
  ⟨by decide, by decide,
   (readstring_buffer_invariant refEnv ⟨[List.replicate 40 65], [], [], false⟩ 41).1 (31, 32)
      (by decide)⟩

/-- With 8388607 bytes stored the buffer is full at its largest capacity and cannot grow. -/
theorem grow_at_threshold (E : Env) {size : Nat} (hp : ∃ k, size = 32 * 2 ^ k)
    (hm : size < READSTRING_MAX) (hc : 8388607 ≤ size - 1) : grow E 8388607 size = none := by
  have hmax : READSTRING_MAX = 10485760 := by norm_num [READSTRING_MAX]
  obtain ⟨k, hk⟩ := hp
  have hle := capacity_le hk hm
  cases hg : grow E 8388607 size with
  | none => rfl
  | some size1 =>
    exfalso
    rcases grow_cases E (by omega) hg with ⟨-, h⟩ | ⟨-, -, h⟩ <;> omega

/-- A stream whose first 8388607 bytes are free of NUL: the loop reads exactly up to the
8388607th byte and fails there. -/
theorem readstring_loop_threshold (E : Env) (hS : 16777216 ≤ E.SIZE_MAX)
    (hR : ∀ n, E.realloc_ok n = true) (rest : List Byte) (post : List (List Byte)) :
    ∀ (s : List Byte) (fuel : Nat) (c : Conn) (str : List Byte) (size : Nat),
      (0 : Byte) ∉ s → Delivers c.inbound (s ++ rest) post → s.length < fuel →
      (∃ k, size = 32 * 2 ^ k) → size < READSTRING_MAX → str.length ≤ size - 1 →
      str.length ≤ 8388607 → 8388607 ≤ str.length + s.length →
      ∃ r, readstring_loop E fuel c str size = some r ∧ r.rc = -1 ∧ r.str = none ∧
        Delivers r.conn.inbound (s.drop (8388607 - str.length) ++ rest) post := by
  intro s
  induction s with
  | nil =>
    intro fuel c str size _ hd hf hp hm hc hle hge
    obtain ⟨f, rfl⟩ : ∃ f, fuel = f + 1 := ⟨fuel - 1, by simp at hf; omega⟩
    simp only [List.length_nil, Nat.add_zero] at hge
    have he : str.length = 8388607 := by omega
    have hg := grow_at_threshold E hp hm (by omega)
    unfold readstring_loop
    rw [he, hg]
    exact ⟨_, rfl, rfl, rfl, by simpa using hd⟩
  | cons b bs ih =>
    intro fuel c str size h0 hd hf hp hm hc hle hge
    obtain ⟨f, rfl⟩ : ∃ f, fuel = f + 1 := ⟨fuel - 1, by simp at hf; omega⟩
    have hb0 : b ≠ 0 := fun e => h0 (by simp [e])
    have hbs : (0 : Byte) ∉ bs := fun e => h0 (by simp [e])
    simp only [List.length_cons] at hge hf
    by_cases he : str.length = 8388607
    · have hg := grow_at_threshold E hp hm (by omega)
      unfold readstring_loop
      rw [he, hg]
      exact ⟨_, rfl, rfl, rfl, by simpa using hd⟩
    · obtain ⟨size1, hg, hp1, hlt⟩ := grow_ok E hS hR hp hc (by omega)
      obtain ⟨k, hk⟩ := hp
      obtain ⟨-, hm1, -⟩ := grow_inv E (capacity_ge hk) hm hc hg
      obtain ⟨inb, hdi, hrecv⟩ := recv_one_of_delivers (by simpa using hd)
      obtain ⟨r, hr, hrc, hstr, hdk⟩ :=
        ih f { c with inbound := inb } (str ++ [b]) size1 hbs hdi (by omega) hp1 hm1
          (by simp only [List.length_append, List.length_cons, List.length_nil]; omega)
          (by simp only [List.length_append, List.length_cons, List.length_nil]; omega)
          (by simp only [List.length_append, List.length_cons, List.length_nil]; omega)
      refine ⟨r, ?_, hrc, hstr, ?_⟩
      · unfold readstring_loop
        simp only [hg, hrecv, List.headD_cons, hb0, if_false]
        rw [if_neg (by decide)]
        exact hr
      · have hidx : 8388607 - str.length = (8388607 - (str ++ [b]).length) + 1 := by
          simp only [List.length_append, List.length_cons, List.length_nil]
          omega
        rw [hidx, List.drop_succ_cons]
        exact hdk

/-- On the success path the loop goes through an iteration for every byte, the terminator
included. -/
theorem readstring_iterations_last (E : Env) (hS : 16777216 ≤ E.SIZE_MAX)
    (hR : ∀ n, E.realloc_ok n = true) (rest : List Byte) (post : List (List Byte)) :
    ∀ (s : List Byte) (fuel : Nat) (c : Conn) (str : List Byte) (size : Nat),
      (0 : Byte) ∉ s → Delivers c.inbound (s ++ 0 :: rest) post → s.length < fuel →
      (∃ k, size = 32 * 2 ^ k) → str.length ≤ size - 1 → str.length + s.length ≤ 8388606 →
      ∃ sz, (str.length + s.length, sz) ∈ readstring_iterations E fuel c str size := by
  intro s
  induction s with
  | nil =>
    intro fuel c str size _ _ hf _ _ _
    obtain ⟨f, rfl⟩ : ∃ f, fuel = f + 1 := ⟨fuel - 1, by simp at hf; omega⟩
    exact ⟨size, by unfold readstring_iterations; simp⟩
  | cons b bs ih =>
    intro fuel c str size h0 hd hf hp hc hb
    obtain ⟨f, rfl⟩ : ∃ f, fuel = f + 1 := ⟨fuel - 1, by simp at hf; omega⟩
    have hb0 : b ≠ 0 := fun e => h0 (by simp [e])
    have hbs : (0 : Byte) ∉ bs := fun e => h0 (by simp [e])
    simp only [List.length_cons] at hb hf
    obtain ⟨size1, hg, hp1, hlt⟩ := grow_ok E hS hR hp hc (by omega)
    obtain ⟨inb, hdi, hrecv⟩ := recv_one_of_delivers (by simpa using hd)
    obtain ⟨sz, hsz⟩ :=
      ih f { c with inbound := inb } (str ++ [b]) size1 hbs hdi (by omega) hp1
        (by simp only [List.length_append, List.length_cons, List.length_nil]; omega)
        (by simp only [List.length_append, List.length_cons, List.length_nil]; omega)
    refine ⟨sz, ?_⟩
    unfold readstring_iterations
    simp only [hg, hrecv, List.headD_cons, hb0, if_false]
    rw [if_neg (by decide)]
    refine List.mem_cons_of_mem _ ?_
    have hidx : str.length + (bs.length + 1) = (str ++ [b]).length + bs.length := by
      simp only [List.length_append, List.length_cons, List.length_nil]
      omega
    rw [List.length_cons, hidx]
    exact hsz

/-- C19: the exact acceptance threshold of `readstring` (memory available, `size_t` of at
least 25 bits).  No capacity above 8388608 is ever reached, and reading a sequence of
8388606 bytes reaches 8388608.  A sequence without NUL followed by NUL is read successfully
if and only if its length is at most 8388606.  On every stream whose first 8388607 bytes
contain no NUL, `readstring` fails with -1 and `NULL` after exactly 8388607 successful byte
reads, although 8388607 is below the maximum of 10 MiB. -/
theorem readstring_threshold (E : Env) (hS : 16777216 ≤ E.SIZE_MAX)
    (hR : ∀ n, E.realloc_ok n = true) (c : Conn) :
    (∀ fuel, ∀ p ∈ readstring_iterations E fuel c [] 32,
        p.2 ≤ 8388608 ∧ ∀ size1, grow E p.1 p.2 = some size1 → size1 ≤ 8388608) ∧
      (∀ (s rest : List Byte) (post : List (List Byte)), (0 : Byte) ∉ s →
        s.length = 8388606 → Delivers c.inbound (s ++ 0 :: rest) post →
        ∃ p ∈ readstring_iterations E (c.inbound.flatten.length + 1) c [] 32,
          grow E p.1 p.2 = some 8388608) ∧
      (∀ (s rest : List Byte) (post : List (List Byte)), (0 : Byte) ∉ s →
        Delivers c.inbound (s ++ 0 :: rest) post →
        ((readstring E c).rc ≠ -1 ↔ s.length ≤ 8388606)) ∧
      (∀ (s rest : List Byte) (post : List (List Byte)), (0 : Byte) ∉ s →
        8388607 ≤ s.length → Delivers c.inbound (s ++ rest) post →
        (readstring E c).rc = -1 ∧ (readstring E c).str = none ∧
          Delivers (readstring E c).conn.inbound (s.drop 8388607 ++ rest) post) ∧
      8388607 < READSTRING_MAX := by
  have hmax : READSTRING_MAX = 10485760 := by norm_num [READSTRING_MAX]
  have hloop := readstring_eq_of_loop E c
  have hfail : ∀ (s rest : List Byte) (post : List (List Byte)), (0 : Byte) ∉ s →
      8388607 ≤ s.length → Delivers c.inbound (s ++ rest) post →
      (readstring E c).rc = -1 ∧ (readstring E c).str = none ∧
        Delivers (readstring E c).conn.inbound (s.drop 8388607 ++ rest) post := by
    intro s rest post h0 hlen hd
    have hfuel : s.length < c.inbound.flatten.length + 1 := by
      have := hd.length_le
      rw [List.length_append] at this
      omega
    obtain ⟨r, hr, hrc, hstr, hdk⟩ :=
      readstring_loop_threshold E hS hR rest post s _ c [] 32 h0 hd hfuel ⟨0, by norm_num⟩
        (by omega) (by simp) (by simp) (by simp only [List.length_nil]; omega)
    rw [hr] at hloop
    have hrr : r = readstring E c := by simpa using hloop
    subst hrr
    exact ⟨hrc, hstr, by simpa using hdk⟩
  refine ⟨?_, ?_, ?_, hfail, by omega⟩
  · intro fuel p hp
    obtain ⟨⟨k, hk⟩, hm, hc⟩ :=
      readstring_iterations_inv E fuel c [] 32 ⟨0, by norm_num⟩ (by omega) (by simp) p hp
    refine ⟨capacity_le hk hm, ?_⟩
    intro size1 hg
    obtain ⟨-, hm', -⟩ := grow_inv E (capacity_ge hk) hm hc hg
    obtain ⟨k1, hk1⟩ := grow_pow E ⟨k, hk⟩ hg
    exact capacity_le hk1 hm'
  · intro s rest post h0 hlen hd
    have hfuel : s.length < c.inbound.flatten.length + 1 := by
      have := hd.length_le
      rw [List.length_append, List.length_cons] at this
      omega
    obtain ⟨sz, hmem⟩ :=
      readstring_iterations_last E hS hR rest post s _ c [] 32 h0 hd hfuel ⟨0, by norm_num⟩
        (by simp) (by simp only [List.length_nil]; omega)
    obtain ⟨⟨k, hk⟩, hm, hc⟩ :=
      readstring_iterations_inv E _ c [] 32 ⟨0, by norm_num⟩ (by omega) (by simp) _ hmem
    simp only [List.length_nil, Nat.zero_add] at hmem hc
    obtain ⟨size1, hg, ⟨k1, hk1⟩, hlt⟩ := grow_ok E hS hR ⟨k, hk⟩ hc (by omega)
    obtain ⟨-, hm', -⟩ := grow_inv E (capacity_ge hk) hm hc hg
    have hle := capacity_le hk1 hm'
    have he : size1 = 8388608 := by omega
    refine ⟨_, hmem, ?_⟩
    simp only
    rw [hg, he]
  · intro s rest post h0 hd
    constructor
    · intro hrc
      by_contra hlen
      exact hrc (hfail s (0 :: rest) post h0 (by omega) hd).1
    · intro hlen
      obtain ⟨inb, -, h⟩ := readstring_of_delivers E hS hR h0 hlen hd
      rw [h]
      simp only
      omega

/-- Witness for C19: 8388607 bytes `1` and no terminator in sight; the read fails although
the length is below 10 MiB. -/
theorem readstring_threshold_witness :
    (0 : Byte) ∉ List.replicate 8388607 (1 : Byte) ∧
      (readstring refEnv ⟨[List.replicate 8388607 1], [], [], false⟩).rc = -1 ∧
      (readstring refEnv ⟨[List.replicate 8388607 1], [], [], false⟩).str = none :=
  have h0 : (0 : Byte) ∉ List.replicate 8388607 (1 : Byte) := by
    intro h
    exact absurd (List.eq_of_mem_replicate h) (by decide)
  have hne : ([] : List Byte) ∉ [List.replicate 8388607 (1 : Byte)] := by
    intro h
    have h1 := congrArg List.length (List.mem_singleton.mp h)
    rw [List.length_replicate] at h1
    exact absurd h1 (by decide)
  have hw := (readstring_threshold refEnv (by decide) (fun _ => rfl)
    ⟨[List.replicate 8388607 1], [], [], false⟩).2.2.2.1
    (List.replicate 8388607 1) [] [] h0 (by rw [List.length_replicate])
    ⟨[List.replicate 8388607 1], rfl, hne, by
      simp only [List.flatten_cons, List.flatten_nil]⟩
  ⟨h0, hw.1, hw.2.1⟩

/-! ## The challenge receive and `send_db`: claims C17 and C18 -/

/-- C17 at a failing input: the challenge `abc123 NUL` arrives in the two chunks `abc` and
`123 NUL`, followed by the status byte 0x00.  A delimited read yields `abc123` and leaves the
status byte.  `basex_authenticate` takes its token from a single receive: the token is `abc`,
the response is the digest for `abc`, the byte `1` is taken for the status, and the call
returns -1.  When the same challenge arrives in one chunk the call returns 0; when the
status byte arrives in the chunk of the challenge it is swallowed and the call returns -1. -/
theorem challenge_split_in_two_chunks :
    (readstring refEnv ⟨[[97, 98, 99], [49, 50, 51, 0], [0]], [], [], false⟩) =
        ⟨7, some [97, 98, 99, 49, 50, 51, 0], ⟨[[0]], [], [], false⟩⟩ ∧
      cstr (SDLNet_TCP_Recv ⟨[[97, 98, 99], [49, 50, 51, 0], [0]], [], [], false⟩
        refEnv.BUFSIZ).data = [97, 98, 99] ∧
      basex_authenticate refEnv ⟨[[97, 98, 99], [49, 50, 51, 0], [0]], [], [], false⟩
          [97, 100, 109, 105, 110] [120] =
        .returned (-1) ⟨[[50, 51, 0], [0]], [], [97, 100, 109, 105, 110, 0, 99, 98, 97, 53,
          100, 109, 120, 109, 100, 53, 0], false⟩ ∧
      basex_authenticate refEnv ⟨[[97, 98, 99, 49, 50, 51, 0], [0]], [], [], false⟩
          [97, 100, 109, 105, 110] [120] =
        .returned 0 ⟨[], [], [97, 100, 109, 105, 110, 0, 51, 50, 49, 99, 98, 97, 53, 100,
          109, 120, 109, 100, 53, 0], false⟩ ∧
      basex_authenticate refEnv ⟨[[97, 98, 99, 49, 50, 51, 0, 0]], [], [], false⟩
          [97, 100, 109, 105, 110] [120] =
        .returned (-1) ⟨[], [], [97, 100, 109, 105, 110, 0, 51, 50, 49, 99, 98, 97, 53, 100,
          109, 120, 109, 100, 53, 0], false⟩ := by
  decide

/-- C18 at a failing input: the buffer `a b NUL` on a transport whose send reports 0.  The
loop of `send_db` stops and the function returns 0 with nothing written; after one accepted
byte and then a 0 it returns 0 with a single byte written; and `basex_execute` goes on to
read a reply although no byte of the command was sent. -/
theorem send_db_zero_return :
    send_db ⟨[], [0], [], false⟩ [97, 98, 0] = ⟨0, ⟨[], [], [], false⟩⟩ ∧
      send_db ⟨[], [1, 0], [], false⟩ [97, 98, 0] = ⟨0, ⟨[], [], [97], false⟩⟩ ∧
      basex_execute refEnv ⟨[[114, 0, 105, 0, 0]], [0], [], false⟩ [97, 98] =
        .returned 0 (some [114, 0]) (some [105, 0]) ⟨[], [], [], false⟩ := by
  decide

end BaseX
